import Mathlib

/-!
Verification of the ray-marching renderer core of `noisebridge-login`.

The program's core is a GLSL fragment shader appearing twice in the
repository: once as the standalone file `src/unnamed/part_000` (fetched at
runtime as `shader.frag`) and once embedded as a string in `src/main.mjs`.
Both shaders are shallowly embedded here over the real numbers: GLSL
`float` arithmetic is modelled by `ℝ`, `vec3` by a record of three reals,
`mat3` by its three column vectors (GLSL matrix constructors are
column-major), and the mutable selection logic of `map` / `rayMarch` by
`if`-expressions and fuel recursion.

The two shader copies share every function except `calcNormal` (the
standalone file uses one-sided differences from an on-surface reference
sample, the embedded copy uses central differences) and the camera origin
(`z = -2.35` versus `z = -2.75`); both variants are embedded.
-/

noncomputable section

/-- A `vec3` value: three real components. -/
@[ext] structure Vec3 where
  x : ℝ
  y : ℝ
  z : ℝ

namespace Vec3

/-- Componentwise addition of two vectors. -/
def add (a b : Vec3) : Vec3 := ⟨a.x + b.x, a.y + b.y, a.z + b.z⟩

/-- Componentwise subtraction of two vectors. -/
def sub (a b : Vec3) : Vec3 := ⟨a.x - b.x, a.y - b.y, a.z - b.z⟩

/-- Scalar multiple of a vector (GLSL `t * v`). -/
def smul (t : ℝ) (a : Vec3) : Vec3 := ⟨t * a.x, t * a.y, t * a.z⟩

/-- Componentwise product of two vectors (GLSL `v * w`). -/
def mulc (a b : Vec3) : Vec3 := ⟨a.x * b.x, a.y * b.y, a.z * b.z⟩

/-- Componentwise absolute value (GLSL `abs(v)`). -/
def absv (a : Vec3) : Vec3 := ⟨|a.x|, |a.y|, |a.z|⟩

/-- Componentwise maximum against a scalar (GLSL `max(v, s)`). -/
def maxs (a : Vec3) (s : ℝ) : Vec3 := ⟨max a.x s, max a.y s, max a.z s⟩

/-- Negation (GLSL `-v`). -/
def neg (a : Vec3) : Vec3 := ⟨-a.x, -a.y, -a.z⟩

/-- Adding a scalar to every component (GLSL `v + s`). -/
def adds (a : Vec3) (s : ℝ) : Vec3 := ⟨a.x + s, a.y + s, a.z + s⟩

/-- Dot product. -/
def dot (a b : Vec3) : ℝ := a.x * b.x + a.y * b.y + a.z * b.z

/-- GLSL `length(v)`. -/
def len (a : Vec3) : ℝ := Real.sqrt (a.x ^ 2 + a.y ^ 2 + a.z ^ 2)

/-- GLSL `normalize(v) = v / length(v)` (componentwise division). -/
def normalize (a : Vec3) : Vec3 := ⟨a.x / len a, a.y / len a, a.z / len a⟩

/-- GLSL `mix(a, b, t) = a * (1 - t) + b * t`, componentwise. -/
def mix (a b : Vec3) (t : ℝ) : Vec3 :=
  ⟨a.x * (1 - t) + b.x * t, a.y * (1 - t) + b.y * t, a.z * (1 - t) + b.z * t⟩

/-- GLSL `reflect(i, n) = i - 2 * dot(n, i) * n`. -/
def reflect (i n : Vec3) : Vec3 := sub i (smul (2 * dot n i) n)

end Vec3

/-- A `mat3` given by its three column vectors, matching the column-major
GLSL constructor `mat3(c0.x, c0.y, c0.z, c1.x, ..., c2.z)`. -/
structure Mat3 where
  c0 : Vec3
  c1 : Vec3
  c2 : Vec3

namespace Mat3

/-- Matrix-vector product: `M * v = v.x * c0 + v.y * c1 + v.z * c2`. -/
def mulVec (m : Mat3) (v : Vec3) : Vec3 :=
  ⟨m.c0.x * v.x + m.c1.x * v.y + m.c2.x * v.z,
   m.c0.y * v.x + m.c1.y * v.y + m.c2.y * v.z,
   m.c0.z * v.x + m.c1.z * v.y + m.c2.z * v.z⟩

/-- Matrix-matrix product, columnwise. -/
def mulMat (a b : Mat3) : Mat3 :=
  ⟨a.mulVec b.c0, a.mulVec b.c1, a.mulVec b.c2⟩

end Mat3

/-- GLSL `length` of a two-component vector, used inside `sdCappedCylinder`. -/
def len2 (a b : ℝ) : ℝ := Real.sqrt (a ^ 2 + b ^ 2)

/-- Distance function for a cube (`sdBox`):
`q = abs(p) - b; length(max(q, 0)) + min(max(q.x, max(q.y, q.z)), 0)`. -/
def sdBox (p b : Vec3) : ℝ :=
  let q := Vec3.sub (Vec3.absv p) b
  Vec3.len (Vec3.maxs q 0) + min (max q.x (max q.y q.z)) 0

/-- Distance function for an octahedron (`sdOctahedron`):
`p = abs(p); (p.x + p.y + p.z - s) * 0.57735027`. -/
def sdOctahedron (p : Vec3) (s : ℝ) : ℝ :=
  let q := Vec3.absv p
  (q.x + q.y + q.z - s) * 0.57735027

/-- Distance function for a capped cylinder (`sdCappedCylinder`):
`d = abs(vec2(length(p.xz), p.y)) - vec2(r, h);
 min(max(d.x, d.y), 0) + length(max(d, 0))`. -/
def sdCappedCylinder (p : Vec3) (h r : ℝ) : ℝ :=
  let dx := |len2 p.x p.z| - r
  let dy := |p.y| - h
  min (max dx dy) 0 + len2 (max dx 0) (max dy 0)

/-- Distance function for a sphere (`sdSphere`): `length(p) - s`. -/
def sdSphere (p : Vec3) (s : ℝ) : ℝ := Vec3.len p - s

/-- Rotation matrix around the X axis (`pitchMatrix`), column-major GLSL
constructor `mat3(1,0,0, 0,cos,-sin, 0,sin,cos)`. -/
def pitchMatrix (angle : ℝ) : Mat3 :=
  ⟨⟨1, 0, 0⟩,
   ⟨0, Real.cos angle, -Real.sin angle⟩,
   ⟨0, Real.sin angle, Real.cos angle⟩⟩

/-- Rotation matrix around the Y axis (`yawMatrix`), column-major GLSL
constructor `mat3(cos,0,sin, 0,1,0, -sin,0,cos)`. -/
def yawMatrix (angle : ℝ) : Mat3 :=
  ⟨⟨Real.cos angle, 0, Real.sin angle⟩,
   ⟨0, 1, 0⟩,
   ⟨-Real.sin angle, 0, Real.cos angle⟩⟩

/-- Rotation matrix around the Z axis (`rollMatrix`), column-major GLSL
constructor `mat3(cos,-sin,0, sin,cos,0, 0,0,1)`. -/
def rollMatrix (angle : ℝ) : Mat3 :=
  ⟨⟨Real.cos angle, -Real.sin angle, 0⟩,
   ⟨Real.sin angle, Real.cos angle, 0⟩,
   ⟨0, 0, 1⟩⟩

/-- The combined rotation built in `map`: `roll * pitch * yaw` with the
roll angle fixed at `0`, applied to the query point. -/
def rotatedP (pitchAngle yawAngle : ℝ) (p : Vec3) : Vec3 :=
  Mat3.mulVec
    (Mat3.mulMat (Mat3.mulMat (rollMatrix 0) (pitchMatrix pitchAngle))
      (yawMatrix yawAngle)) p

/-- The cube term of `map`: `sdBox(rotatedP, vec3(1.2, 1.0, 1.0))`. -/
def cubeD (pitchAngle yawAngle : ℝ) (p : Vec3) : ℝ :=
  sdBox (rotatedP pitchAngle yawAngle p) ⟨1.2, 1.0, 1.0⟩

/-- The octahedron term of `map`: translate `rotatedP` by `-(0,0,-1)`,
divide the X component by `1.2`, rotate by a fixed 45-degree roll, and
evaluate `sdOctahedron(·, 1.2)`. -/
def octahedronD (pitchAngle yawAngle : ℝ) (p : Vec3) : ℝ :=
  let rp := rotatedP pitchAngle yawAngle p
  let octahedronPosBase := Vec3.sub rp ⟨0.0, 0.0, -1.0⟩
  let octahedronPosBase' : Vec3 :=
    ⟨octahedronPosBase.x / 1.2, octahedronPosBase.y, octahedronPosBase.z⟩
  let octahedronPos := Mat3.mulVec (rollMatrix (Real.pi / 4)) octahedronPosBase'
  sdOctahedron octahedronPos 1.2

/-- The cylinder term of `map`: starts from `rotatedP` (the code comment
claims world coordinates, but the code uses the rotated point), offsets Z
by `+0.75`, scales by `vec3(0.125, 1, 1)`, and evaluates
`sdCappedCylinder(·, 1.0, 0.2)`. -/
def cylinderD (pitchAngle yawAngle : ℝ) (p : Vec3) : ℝ :=
  let cylinderPos := rotatedP pitchAngle yawAngle p
  let cylinderPos' : Vec3 := ⟨cylinderPos.x, cylinderPos.y, cylinderPos.z + 0.75⟩
  let cylinderPos'' := Vec3.mulc cylinderPos' ⟨0.125, 1.0, 1.0⟩
  sdCappedCylinder cylinderPos'' 1.0 0.2

/-- The CSG subtraction of `map`: `max(cube, -octahedron)`. -/
def cubeWithHoleD (pitchAngle yawAngle : ℝ) (p : Vec3) : ℝ :=
  max (cubeD pitchAngle yawAngle p) (-octahedronD pitchAngle yawAngle p)

/-- The LED-sphere term of `map`:
`sdSphere(rotatedP - vec3(1.1, -0.9, -1.0), 0.02)`. -/
def ledSphereD (pitchAngle yawAngle : ℝ) (p : Vec3) : ℝ :=
  sdSphere (Vec3.sub (rotatedP pitchAngle yawAngle p) ⟨1.1, -0.9, -1.0⟩) 0.02

/-- The CSG intersection of `map`: `max(cylinder, cube)`. -/
def cylinderInCubeD (pitchAngle yawAngle : ℝ) (p : Vec3) : ℝ :=
  max (cylinderD pitchAngle yawAngle p) (cubeD pitchAngle yawAngle p)

/-- Material id constants of the shader. -/
def MATERIAL_PLASTIC : ℝ := 0.0

/-- Material id of the glass cylinder. -/
def MATERIAL_GLASS : ℝ := 1.0

/-- Material id of the LED sphere. -/
def MATERIAL_LED : ℝ := 2.0

/-- The scene function `map`: starts from `(cubeWithHole, MATERIAL_PLASTIC)`
and replaces the running minimum by `(cylinderInCube, MATERIAL_GLASS)` and
then `(ledSphere, MATERIAL_LED)`, each only on a strict `<` comparison;
returns `vec2(minDist, material)` as a pair. -/
def map (pitchAngle yawAngle : ℝ) (p : Vec3) : ℝ × ℝ :=
  let m1 : ℝ × ℝ :=
    if cylinderInCubeD pitchAngle yawAngle p < cubeWithHoleD pitchAngle yawAngle p
    then (cylinderInCubeD pitchAngle yawAngle p, MATERIAL_GLASS)
    else (cubeWithHoleD pitchAngle yawAngle p, MATERIAL_PLASTIC)
  if ledSphereD pitchAngle yawAngle p < m1.1
  then (ledSphereD pitchAngle yawAngle p, MATERIAL_LED)
  else m1

/- ### Basic algebraic lemmas about the embedding -/

theorem rotatedP_eq (pitchAngle yawAngle : ℝ) (p : Vec3) :
    rotatedP pitchAngle yawAngle p =
      ⟨Real.cos yawAngle * p.x - Real.sin yawAngle * p.z,
       Real.cos pitchAngle * p.y +
         Real.sin pitchAngle * (Real.sin yawAngle * p.x + Real.cos yawAngle * p.z),
       -Real.sin pitchAngle * p.y +
         Real.cos pitchAngle * (Real.sin yawAngle * p.x + Real.cos yawAngle * p.z)⟩ := by
  simp only [rotatedP, rollMatrix, pitchMatrix, yawMatrix, Mat3.mulMat, Mat3.mulVec,
    Real.cos_zero, Real.sin_zero]
  ext <;> ring

theorem rotatedP_zero (p : Vec3) : rotatedP 0 0 p = p := by
  rw [rotatedP_eq]
  simp [Real.cos_zero, Real.sin_zero]

/-- `length` of a vector whose components are all zero except possibly `z ≥ 0`. -/
theorem len_zzonly {c : ℝ} (hc : 0 ≤ c) : Vec3.len ⟨0, 0, c⟩ = c := by
  simp only [Vec3.len]
  rw [show (0:ℝ) ^ 2 + 0 ^ 2 + c ^ 2 = c ^ 2 by ring, Real.sqrt_sq hc]

theorem len_ge_absx (v : Vec3) : |v.x| ≤ Vec3.len v := by
  rw [show |v.x| = Real.sqrt (v.x ^ 2) by rw [Real.sqrt_sq_eq_abs]]
  exact Real.sqrt_le_sqrt (by nlinarith [sq_nonneg v.y, sq_nonneg v.z])

theorem len_ge_absy (v : Vec3) : |v.y| ≤ Vec3.len v := by
  rw [show |v.y| = Real.sqrt (v.y ^ 2) by rw [Real.sqrt_sq_eq_abs]]
  exact Real.sqrt_le_sqrt (by nlinarith [sq_nonneg v.x, sq_nonneg v.z])

theorem len_ge_absz (v : Vec3) : |v.z| ≤ Vec3.len v := by
  rw [show |v.z| = Real.sqrt (v.z ^ 2) by rw [Real.sqrt_sq_eq_abs]]
  exact Real.sqrt_le_sqrt (by nlinarith [sq_nonneg v.x, sq_nonneg v.y])

theorem len_nonneg (v : Vec3) : 0 ≤ Vec3.len v := Real.sqrt_nonneg _

/-- Evaluation of `sdBox` for a point inside the `1.2 × 1 × 1` box slab in
every axis: the result is the largest (least negative) offset component. -/
theorem sdBox_inside {p b : Vec3} (hx : |p.x| ≤ b.x) (hy : |p.y| ≤ b.y)
    (hz : |p.z| ≤ b.z) :
    sdBox p b = max (|p.x| - b.x) (max (|p.y| - b.y) (|p.z| - b.z)) := by
  simp only [sdBox, Vec3.sub, Vec3.absv, Vec3.maxs, Vec3.len]
  rw [max_eq_right (by linarith), max_eq_right (by linarith),
    max_eq_right (by linarith)]
  rw [show (0:ℝ) ^ 2 + 0 ^ 2 + 0 ^ 2 = 0 by ring, Real.sqrt_zero]
  rw [min_eq_left (by
    apply max_le (by linarith) (max_le (by linarith) (by linarith)))]
  ring

/-- Evaluation of `sdBox` for a point outside the box only in the `z`
direction (toward the camera): the distance is `|p.z| - b.z`. -/
theorem sdBox_front {p b : Vec3} (hx : |p.x| ≤ b.x) (hy : |p.y| ≤ b.y)
    (hz : b.z ≤ |p.z|) :
    sdBox p b = |p.z| - b.z := by
  simp only [sdBox, Vec3.sub, Vec3.absv, Vec3.maxs, Vec3.len]
  rw [max_eq_right (by linarith), max_eq_right (by linarith),
    max_eq_left (by linarith)]
  rw [show (0:ℝ) ^ 2 + 0 ^ 2 + (|p.z| - b.z) ^ 2 = (|p.z| - b.z) ^ 2 by ring,
    Real.sqrt_sq (by linarith)]
  rw [min_eq_right (le_max_of_le_right (le_max_of_le_right (by linarith)))]
  ring

theorem len2_nonneg (a b : ℝ) : 0 ≤ len2 a b := Real.sqrt_nonneg _

theorem len2_eval_x {a : ℝ} (ha : 0 ≤ a) : len2 a 0 = a := by
  simp only [len2]
  rw [show a ^ 2 + 0 ^ 2 = a ^ 2 by ring, Real.sqrt_sq ha]

theorem len2_eval_z {b : ℝ} (hb : 0 ≤ b) : len2 0 b = b := by
  simp only [len2]
  rw [show (0:ℝ) ^ 2 + b ^ 2 = b ^ 2 by ring, Real.sqrt_sq hb]

/-- Evaluation of `sdCappedCylinder` when the radial offset dominates and
the point is inside the cylinder (`dy ≤ dx ≤ 0`): the value is `dx`. -/
theorem sdCappedCylinder_inner {p : Vec3} {h r : ℝ}
    (h1 : |len2 p.x p.z| - r ≤ 0) (h2 : |p.y| - h ≤ |len2 p.x p.z| - r) :
    sdCappedCylinder p h r = |len2 p.x p.z| - r := by
  simp only [sdCappedCylinder]
  rw [max_eq_left h2, min_eq_left h1, max_eq_right h1,
    max_eq_right (by linarith), len2_eval_z le_rfl, add_zero]

/-- Evaluation of `sdCappedCylinder` when the point is outside only
radially (`dy ≤ 0 ≤ dx`): the value is `dx`. -/
theorem sdCappedCylinder_radial {p : Vec3} {h r : ℝ}
    (h1 : 0 ≤ |len2 p.x p.z| - r) (h2 : |p.y| - h ≤ 0) :
    sdCappedCylinder p h r = |len2 p.x p.z| - r := by
  simp only [sdCappedCylinder]
  rw [max_eq_left (by linarith), min_eq_right h1, max_eq_left h1,
    max_eq_right h2, len2_eval_x h1, zero_add]

/-- The octahedron term written as an explicit formula: with
`(x, y, z) = rotatedP`, `x' = x / 1.2`, the 45-degree roll sends
`(x', y)` to `(√2/2 * (x' + y), √2/2 * (y - x'))` and the result is
`(√2/2 * (|x' + y| + |y - x'|) + |z + 1| - 1.2) * 0.57735027`. -/
theorem octahedronD_eq (pitchAngle yawAngle : ℝ) (p : Vec3) :
    octahedronD pitchAngle yawAngle p =
      (Real.sqrt 2 / 2 * |(rotatedP pitchAngle yawAngle p).x / 1.2 +
          (rotatedP pitchAngle yawAngle p).y| +
        Real.sqrt 2 / 2 * |(rotatedP pitchAngle yawAngle p).y -
          (rotatedP pitchAngle yawAngle p).x / 1.2| +
        |(rotatedP pitchAngle yawAngle p).z + 1| - 1.2) * 0.57735027 := by
  have h2 : (0:ℝ) ≤ Real.sqrt 2 / 2 := by positivity
  simp only [octahedronD, sdOctahedron, rollMatrix, Mat3.mulVec, Vec3.sub,
    Vec3.absv, Real.cos_pi_div_four, Real.sin_pi_div_four]
  set X := (rotatedP pitchAngle yawAngle p).x
  set Y := (rotatedP pitchAngle yawAngle p).y
  set Z := (rotatedP pitchAngle yawAngle p).z
  rw [show Real.sqrt 2 / 2 * ((X - 0.0) / 1.2) + Real.sqrt 2 / 2 * (Y - 0.0) +
      0 * (Z - -1.0) = Real.sqrt 2 / 2 * (X / 1.2 + Y) from by ring]
  rw [show -(Real.sqrt 2 / 2) * ((X - 0.0) / 1.2) + Real.sqrt 2 / 2 * (Y - 0.0) +
      0 * (Z - -1.0) = Real.sqrt 2 / 2 * (Y - X / 1.2) from by ring]
  rw [show (0:ℝ) * ((X - 0.0) / 1.2) + 0 * (Y - 0.0) + 1 * (Z - -1.0) =
      Z + 1 from by ring]
  rw [abs_mul, abs_mul, abs_of_nonneg h2]

/-- The octahedron term is bounded below by `-1.2 * 0.57735027`. -/
theorem octahedronD_ge (pitchAngle yawAngle : ℝ) (p : Vec3) :
    -0.692820324 ≤ octahedronD pitchAngle yawAngle p := by
  rw [octahedronD_eq]
  have h2 : (0:ℝ) ≤ Real.sqrt 2 / 2 := by positivity
  have ha := abs_nonneg ((rotatedP pitchAngle yawAngle p).x / 1.2 +
    (rotatedP pitchAngle yawAngle p).y)
  have hb := abs_nonneg ((rotatedP pitchAngle yawAngle p).y -
    (rotatedP pitchAngle yawAngle p).x / 1.2)
  have hc := abs_nonneg ((rotatedP pitchAngle yawAngle p).z + 1)
  nlinarith

/-- The LED sphere term is never below `-0.02`. -/
theorem ledSphereD_ge (pitchAngle yawAngle : ℝ) (p : Vec3) :
    -0.02 ≤ ledSphereD pitchAngle yawAngle p := by
  have := len_nonneg (Vec3.sub (rotatedP pitchAngle yawAngle p) ⟨1.1, -0.9, -1.0⟩)
  simp only [ledSphereD, sdSphere]
  linarith

/-- The distance component of `map` is the three-way minimum of the body
with hole, the cylinder intersection, and the LED sphere. -/
theorem map_fst (pitchAngle yawAngle : ℝ) (p : Vec3) :
    (map pitchAngle yawAngle p).1 =
      min (ledSphereD pitchAngle yawAngle p)
        (min (cylinderInCubeD pitchAngle yawAngle p)
          (cubeWithHoleD pitchAngle yawAngle p)) := by
  simp only [map]
  by_cases h1 : cylinderInCubeD pitchAngle yawAngle p <
      cubeWithHoleD pitchAngle yawAngle p
  · rw [if_pos h1, min_eq_left h1.le]
    by_cases h2 : ledSphereD pitchAngle yawAngle p <
        cylinderInCubeD pitchAngle yawAngle p
    · rw [if_pos h2, min_eq_left h2.le]
    · rw [if_neg h2, min_eq_right (le_of_not_lt h2)]
  · rw [if_neg h1, min_eq_right (le_of_not_lt h1)]
    by_cases h2 : ledSphereD pitchAngle yawAngle p <
        cubeWithHoleD pitchAngle yawAngle p
    · rw [if_pos h2, min_eq_left h2.le]
    · rw [if_neg h2, min_eq_right (le_of_not_lt h2)]

/-- The material component of `map`, resolved into a single conditional. -/
theorem map_snd (pitchAngle yawAngle : ℝ) (p : Vec3) :
    (map pitchAngle yawAngle p).2 =
      if ledSphereD pitchAngle yawAngle p <
          min (cylinderInCubeD pitchAngle yawAngle p)
            (cubeWithHoleD pitchAngle yawAngle p)
      then MATERIAL_LED
      else if cylinderInCubeD pitchAngle yawAngle p <
          cubeWithHoleD pitchAngle yawAngle p
      then MATERIAL_GLASS else MATERIAL_PLASTIC := by
  simp only [map]
  by_cases h1 : cylinderInCubeD pitchAngle yawAngle p <
      cubeWithHoleD pitchAngle yawAngle p
  · rw [if_pos h1, min_eq_left h1.le]
    by_cases h2 : ledSphereD pitchAngle yawAngle p <
        cylinderInCubeD pitchAngle yawAngle p
    · rw [if_pos h2, if_pos h2]
    · rw [if_neg h2, if_neg h2, if_pos h1]
  · rw [if_neg h1, min_eq_right (le_of_not_lt h1)]
    by_cases h2 : ledSphereD pitchAngle yawAngle p <
        cubeWithHoleD pitchAngle yawAngle p
    · rw [if_pos h2, if_pos h2]
    · rw [if_neg h2, if_neg h2, if_neg h1]

/-- The cylinder intersection never beats the bare cube term. -/
theorem cylinderInCubeD_ge_cube (pitchAngle yawAngle : ℝ) (p : Vec3) :
    cubeD pitchAngle yawAngle p ≤ cylinderInCubeD pitchAngle yawAngle p :=
  le_max_right _ _

/-- The body with hole never beats the bare cube term. -/
theorem cubeWithHoleD_ge_cube (pitchAngle yawAngle : ℝ) (p : Vec3) :
    cubeD pitchAngle yawAngle p ≤ cubeWithHoleD pitchAngle yawAngle p :=
  le_max_left _ _

/-- The distance component of `map` is at least the smaller of the cube
term and the LED term. -/
theorem map_fst_ge (pitchAngle yawAngle : ℝ) (p : Vec3) :
    min (ledSphereD pitchAngle yawAngle p) (cubeD pitchAngle yawAngle p) ≤
      (map pitchAngle yawAngle p).1 := by
  rw [map_fst]
  apply min_le_min le_rfl
  exact le_min (le_trans (cylinderInCubeD_ge_cube _ _ _) le_rfl)
    (cubeWithHoleD_ge_cube _ _ _)

/-- When the CSG hole is inactive (`-octahedron ≤ cube`) and the LED is
at least the cube term, `map` returns the cube distance with the Plastic
material. -/
theorem map_eval_cube (pitchAngle yawAngle : ℝ) (p : Vec3)
    (hoct : -octahedronD pitchAngle yawAngle p ≤ cubeD pitchAngle yawAngle p)
    (hled : cubeD pitchAngle yawAngle p ≤ ledSphereD pitchAngle yawAngle p) :
    map pitchAngle yawAngle p = (cubeD pitchAngle yawAngle p, MATERIAL_PLASTIC) := by
  have hcwh : cubeWithHoleD pitchAngle yawAngle p = cubeD pitchAngle yawAngle p :=
    max_eq_left hoct
  have h1 : ¬ (cylinderInCubeD pitchAngle yawAngle p <
      cubeWithHoleD pitchAngle yawAngle p) := by
    rw [hcwh]; exact not_lt.mpr (cylinderInCubeD_ge_cube _ _ _)
  have h2 : ¬ (ledSphereD pitchAngle yawAngle p < cubeD pitchAngle yawAngle p) :=
    not_lt.mpr hled
  simp only [map]
  rw [if_neg h1, hcwh, if_neg h2]

/- ### Numeric bounds -/

theorem sqrt_two_gt : (1.41:ℝ) < Real.sqrt 2 := by
  rw [Real.lt_sqrt (by norm_num)]; norm_num

theorem sqrt_two_lt : Real.sqrt 2 < 1.4143 := by
  rw [show (1.4143:ℝ) = Real.sqrt (1.4143 ^ 2) from (Real.sqrt_sq (by norm_num)).symm]
  exact Real.sqrt_lt_sqrt (by norm_num) (by norm_num)

/-- `sdBox` is at least the (positive) x-axis excess. -/
theorem sdBox_ge_x {p b : Vec3} (hx : 0 ≤ |p.x| - b.x) : |p.x| - b.x ≤ sdBox p b := by
  simp only [sdBox, Vec3.sub, Vec3.absv, Vec3.maxs]
  have h1 : min (max (|p.x| - b.x) (max (|p.y| - b.y) (|p.z| - b.z))) 0 = 0 :=
    min_eq_right (le_max_of_le_left hx)
  rw [h1, add_zero]
  calc |p.x| - b.x = max (|p.x| - b.x) 0 := (max_eq_left hx).symm
    _ ≤ |max (|p.x| - b.x) 0| := le_abs_self _
    _ ≤ Vec3.len ⟨max (|p.x| - b.x) 0, max (|p.y| - b.y) 0, max (|p.z| - b.z) 0⟩ :=
        len_ge_absx ⟨max (|p.x| - b.x) 0, max (|p.y| - b.y) 0, max (|p.z| - b.z) 0⟩

/-- `sdBox` is at least the (positive) y-axis excess. -/
theorem sdBox_ge_y {p b : Vec3} (hy : 0 ≤ |p.y| - b.y) : |p.y| - b.y ≤ sdBox p b := by
  simp only [sdBox, Vec3.sub, Vec3.absv, Vec3.maxs]
  have h1 : min (max (|p.x| - b.x) (max (|p.y| - b.y) (|p.z| - b.z))) 0 = 0 :=
    min_eq_right (le_max_of_le_right (le_max_of_le_left hy))
  rw [h1, add_zero]
  calc |p.y| - b.y = max (|p.y| - b.y) 0 := (max_eq_left hy).symm
    _ ≤ |max (|p.y| - b.y) 0| := le_abs_self _
    _ ≤ Vec3.len ⟨max (|p.x| - b.x) 0, max (|p.y| - b.y) 0, max (|p.z| - b.z) 0⟩ :=
        len_ge_absy ⟨max (|p.x| - b.x) 0, max (|p.y| - b.y) 0, max (|p.z| - b.z) 0⟩

/-- `sdBox` is at least the (positive) z-axis excess. -/
theorem sdBox_ge_z {p b : Vec3} (hz : 0 ≤ |p.z| - b.z) : |p.z| - b.z ≤ sdBox p b := by
  simp only [sdBox, Vec3.sub, Vec3.absv, Vec3.maxs]
  have h1 : min (max (|p.x| - b.x) (max (|p.y| - b.y) (|p.z| - b.z))) 0 = 0 :=
    min_eq_right (le_max_of_le_right (le_max_of_le_right hz))
  rw [h1, add_zero]
  calc |p.z| - b.z = max (|p.z| - b.z) 0 := (max_eq_left hz).symm
    _ ≤ |max (|p.z| - b.z) 0| := le_abs_self _
    _ ≤ Vec3.len ⟨max (|p.x| - b.x) 0, max (|p.y| - b.y) 0, max (|p.z| - b.z) 0⟩ :=
        len_ge_absz ⟨max (|p.x| - b.x) 0, max (|p.y| - b.y) 0, max (|p.z| - b.z) 0⟩

/- ### Evaluation of `map` at the origin with zero rotation -/

theorem cubeD_origin : cubeD 0 0 ⟨0, 0, 0⟩ = -1 := by
  unfold cubeD
  rw [rotatedP_zero]
  rw [sdBox_inside (by norm_num) (by norm_num) (by norm_num)]
  norm_num

theorem octahedronD_origin : octahedronD 0 0 ⟨0, 0, 0⟩ = -0.115470054 := by
  rw [octahedronD_eq, rotatedP_zero]
  norm_num

theorem cylinderD_origin : cylinderD 0 0 ⟨0, 0, 0⟩ = 0.55 := by
  unfold cylinderD
  rw [rotatedP_zero]
  simp only [Vec3.mulc]
  rw [show (⟨(0:ℝ) * 0.125, 0 * 1.0, (0 + 0.75) * 1.0⟩ : Vec3) =
    (⟨0, 0, 0.75⟩ : Vec3) from by norm_num]
  rw [sdCappedCylinder_radial (by
      rw [len2_eval_z (by norm_num), abs_of_nonneg (by norm_num : (0:ℝ) ≤ 0.75)]
      norm_num)
    (by norm_num)]
  rw [len2_eval_z (by norm_num), abs_of_nonneg (by norm_num : (0:ℝ) ≤ 0.75)]
  norm_num

theorem ledSphereD_origin : (1.08:ℝ) ≤ ledSphereD 0 0 ⟨0, 0, 0⟩ := by
  unfold ledSphereD
  rw [rotatedP_zero]
  simp only [sdSphere, Vec3.sub]
  have := len_ge_absx (⟨0 - 1.1, 0 - -0.9, 0 - -1.0⟩ : Vec3)
  simp only at this
  rw [show |(0:ℝ) - 1.1| = 1.1 from by rw [abs_of_nonpos] <;> norm_num] at this
  linarith

theorem map_origin : map 0 0 ⟨0, 0, 0⟩ = (0.115470054, MATERIAL_PLASTIC) := by
  have hcwh : cubeWithHoleD 0 0 ⟨0, 0, 0⟩ = 0.115470054 := by
    unfold cubeWithHoleD
    rw [cubeD_origin, octahedronD_origin]
    norm_num
  have hcyc : cylinderInCubeD 0 0 ⟨0, 0, 0⟩ = 0.55 := by
    unfold cylinderInCubeD
    rw [cubeD_origin, cylinderD_origin]
    norm_num
  have h1 : ¬ (cylinderInCubeD 0 0 ⟨0, 0, 0⟩ < cubeWithHoleD 0 0 ⟨0, 0, 0⟩) := by
    rw [hcwh, hcyc]; norm_num
  have h2 : ¬ (ledSphereD 0 0 ⟨0, 0, 0⟩ < cubeWithHoleD 0 0 ⟨0, 0, 0⟩) := by
    rw [hcwh]; have := ledSphereD_origin; linarith
  simp only [map]
  rw [if_neg h1, if_neg h2, hcwh]

/- ### Evaluation at the cylinder/body tie point `(0, 0.99, -0.75)` -/

theorem cubeD_tie : cubeD 0 0 ⟨0, 0.99, -0.75⟩ = -0.01 := by
  unfold cubeD
  rw [rotatedP_zero]
  rw [sdBox_inside (by norm_num) (by rw [abs_of_nonneg] <;> norm_num)
    (by rw [abs_of_nonpos] <;> norm_num)]
  rw [abs_of_nonneg (by norm_num : (0:ℝ) ≤ 0.99),
    abs_of_nonpos (by norm_num : (-0.75:ℝ) ≤ 0), abs_of_nonneg le_rfl]
  norm_num

theorem cylinderD_tie : cylinderD 0 0 ⟨0, 0.99, -0.75⟩ = -0.01 := by
  unfold cylinderD
  rw [rotatedP_zero]
  simp only [Vec3.mulc]
  rw [show (⟨(0:ℝ) * 0.125, 0.99 * 1.0, (-0.75 + 0.75) * 1.0⟩ : Vec3) =
    (⟨0, 0.99, 0⟩ : Vec3) from by norm_num]
  have hl : len2 (0:ℝ) 0 = 0 := len2_eval_z le_rfl
  simp only [sdCappedCylinder]
  rw [hl]
  rw [show |(0:ℝ)| - 0.2 = -0.2 from by norm_num,
    show |(0.99:ℝ)| - 1.0 = -0.01 from by rw [abs_of_nonneg] <;> norm_num]
  rw [max_eq_right (by norm_num : (-0.2:ℝ) ≤ -0.01),
    min_eq_left (by norm_num : (-0.01:ℝ) ≤ 0),
    max_eq_right (by norm_num : (-0.2:ℝ) ≤ 0),
    max_eq_right (by norm_num : (-0.01:ℝ) ≤ 0), len2_eval_z le_rfl]
  norm_num

theorem octahedronD_tie : (0.01:ℝ) ≤ octahedronD 0 0 ⟨0, 0.99, -0.75⟩ := by
  rw [octahedronD_eq, rotatedP_zero]
  have h := sqrt_two_gt
  rw [show (⟨0, 0.99, -0.75⟩ : Vec3).x = 0 from rfl,
    show (⟨0, 0.99, -0.75⟩ : Vec3).y = 0.99 from rfl,
    show (⟨0, 0.99, -0.75⟩ : Vec3).z = -0.75 from rfl]
  rw [show |(0:ℝ) / 1.2 + 0.99| = 0.99 from by rw [abs_of_nonneg] <;> norm_num,
    show |(0.99:ℝ) - 0 / 1.2| = 0.99 from by rw [abs_of_nonneg] <;> norm_num,
    show |(-0.75:ℝ) + 1| = 0.25 from by rw [abs_of_nonneg] <;> norm_num]
  nlinarith

theorem ledSphereD_tie : (1.08:ℝ) ≤ ledSphereD 0 0 ⟨0, 0.99, -0.75⟩ := by
  unfold ledSphereD
  rw [rotatedP_zero]
  simp only [sdSphere, Vec3.sub]
  have := len_ge_absx (⟨0 - 1.1, 0.99 - -0.9, -0.75 - -1.0⟩ : Vec3)
  simp only at this
  rw [show |(0:ℝ) - 1.1| = 1.1 from by rw [abs_of_nonpos] <;> norm_num] at this
  linarith

theorem tie_cwh : cubeWithHoleD 0 0 ⟨0, 0.99, -0.75⟩ = -0.01 := by
  unfold cubeWithHoleD
  rw [cubeD_tie]
  have := octahedronD_tie
  rw [max_eq_left (by linarith)]

theorem tie_cyc : cylinderInCubeD 0 0 ⟨0, 0.99, -0.75⟩ = -0.01 := by
  unfold cylinderInCubeD
  rw [cubeD_tie, cylinderD_tie, max_self]

theorem map_tie_snd : (map 0 0 ⟨0, 0.99, -0.75⟩).2 = MATERIAL_PLASTIC := by
  rw [map_snd, tie_cwh, tie_cyc]
  have := ledSphereD_tie
  rw [if_neg (by rw [min_self]; intro h; linarith), if_neg (by norm_num)]

/- ### Claims C1, C3, C9 -/

/-- C1 (counterexample): at the origin with zero rotation the claim
"`map((0,0,0))` selects Plastic and `distance < 0`" is false: the
distance component is `0.115470054 > 0` (the origin lies inside the
octahedron cutout carved out of the cube). -/
theorem claim_C1_counterexample :
    ¬ ((map 0 0 ⟨0, 0, 0⟩).2 = MATERIAL_PLASTIC ∧ (map 0 0 ⟨0, 0, 0⟩).1 < 0) := by
  rw [map_origin]
  rintro ⟨-, h⟩
  norm_num at h

/-- C1 (amended): at the origin with zero rotation `map` selects material
Plastic and returns the strictly positive distance `0.115470054`
(`= 0.2 * 0.57735027`, the inexact octahedron bound at the origin, which
lies inside the front cutout). -/
theorem claim_C1 :
    (map 0 0 ⟨0, 0, 0⟩).2 = MATERIAL_PLASTIC ∧
      (map 0 0 ⟨0, 0, 0⟩).1 = 0.115470054 ∧ 0 < (map 0 0 ⟨0, 0, 0⟩).1 := by
  rw [map_origin]
  norm_num

/-- C3 (counterexample): at `(0, 0.99, -0.75)` with zero rotation the
cylinder-in-cube term exactly ties the body-with-hole term (both are
`-0.01`), yet the selected material is Plastic, not Glass: the strict `<`
comparison means ties keep the earlier object, so "the last object wins
ties" is false. -/
theorem claim_C3_counterexample :
    cylinderInCubeD 0 0 ⟨0, 0.99, -0.75⟩ = cubeWithHoleD 0 0 ⟨0, 0.99, -0.75⟩ ∧
      (map 0 0 ⟨0, 0.99, -0.75⟩).2 ≠ MATERIAL_GLASS := by
  refine ⟨by rw [tie_cyc, tie_cwh], ?_⟩
  rw [map_tie_snd]
  norm_num [MATERIAL_PLASTIC, MATERIAL_GLASS]

/-- C3 (amended): `map` replaces the running minimum only on a strictly
smaller distance, in the fixed order body-with-hole, then
cylinder-intersected-with-cube, then LED sphere; consequently the material
is Led exactly when the LED sphere is strictly below both other terms,
Glass exactly when the LED is not and the cylinder term is strictly below
the body term, and Plastic otherwise — on exact ties the earlier object
wins, not the later one. -/
theorem claim_C3 (pitchAngle yawAngle : ℝ) (p : Vec3) :
    ((map pitchAngle yawAngle p).2 = MATERIAL_LED ↔
      ledSphereD pitchAngle yawAngle p <
        min (cylinderInCubeD pitchAngle yawAngle p)
          (cubeWithHoleD pitchAngle yawAngle p)) ∧
    ((map pitchAngle yawAngle p).2 = MATERIAL_GLASS ↔
      ¬ (ledSphereD pitchAngle yawAngle p <
          min (cylinderInCubeD pitchAngle yawAngle p)
            (cubeWithHoleD pitchAngle yawAngle p)) ∧
        cylinderInCubeD pitchAngle yawAngle p < cubeWithHoleD pitchAngle yawAngle p) ∧
    ((map pitchAngle yawAngle p).2 = MATERIAL_PLASTIC ↔
      ¬ (ledSphereD pitchAngle yawAngle p <
          min (cylinderInCubeD pitchAngle yawAngle p)
            (cubeWithHoleD pitchAngle yawAngle p)) ∧
        ¬ (cylinderInCubeD pitchAngle yawAngle p <
          cubeWithHoleD pitchAngle yawAngle p)) := by
  rw [map_snd]
  split_ifs with h1 h2
  · norm_num [MATERIAL_PLASTIC, MATERIAL_GLASS, MATERIAL_LED, h1]
  · norm_num [MATERIAL_PLASTIC, MATERIAL_GLASS, MATERIAL_LED, h1, h2]
  · norm_num [MATERIAL_PLASTIC, MATERIAL_GLASS, MATERIAL_LED, h1, h2]

/-- C9: with zero rotation, any point with some coordinate of absolute
value beyond 1.3 (strictly outside the cube's bounding box) has strictly
positive `map` distance. -/
theorem claim_C9 (p : Vec3) (h : 1.3 < |p.x| ∨ 1.3 < |p.y| ∨ 1.3 < |p.z|) :
    0 < (map 0 0 p).1 := by
  refine lt_of_lt_of_le ?_ (map_fst_ge 0 0 p)
  have hled : ledSphereD 0 0 p =
      Vec3.len ⟨p.x - 1.1, p.y - -0.9, p.z - -1.0⟩ - 0.02 := by
    unfold ledSphereD
    rw [rotatedP_zero]
    simp only [sdSphere, Vec3.sub]
  have hcube : cubeD 0 0 p = sdBox p ⟨1.2, 1.0, 1.0⟩ := by
    unfold cubeD; rw [rotatedP_zero]
  rw [lt_min_iff, hled, hcube]
  rcases h with hx | hy | hz
  · constructor
    · have h1 : |p.x| - 1.1 ≤ |p.x - 1.1| := by
        have := abs_sub_abs_le_abs_sub p.x (1.1:ℝ)
        rw [show |(1.1:ℝ)| = 1.1 from by rw [abs_of_nonneg] <;> norm_num] at this
        linarith
      have h2 := len_ge_absx (⟨p.x - 1.1, p.y - -0.9, p.z - -1.0⟩ : Vec3)
      simp only at h2
      linarith
    · have h1 : (0:ℝ) ≤ |p.x| - (⟨1.2, 1.0, 1.0⟩ : Vec3).x := by
        rw [show (⟨1.2, 1.0, 1.0⟩ : Vec3).x = 1.2 from rfl]; linarith
      have := sdBox_ge_x h1
      rw [show (⟨1.2, 1.0, 1.0⟩ : Vec3).x = 1.2 from rfl] at this
      linarith
  · constructor
    · have h1 : |p.y| - 0.9 ≤ |p.y - -0.9| := by
        have := abs_sub_abs_le_abs_sub p.y (-0.9:ℝ)
        rw [show |(-0.9:ℝ)| = 0.9 from by rw [abs_of_nonpos] <;> norm_num] at this
        linarith
      have h2 := len_ge_absy (⟨p.x - 1.1, p.y - -0.9, p.z - -1.0⟩ : Vec3)
      simp only at h2
      linarith
    · have h1 : (0:ℝ) ≤ |p.y| - (⟨1.2, 1.0, 1.0⟩ : Vec3).y := by
        rw [show (⟨1.2, 1.0, 1.0⟩ : Vec3).y = 1.0 from rfl]; linarith
      have := sdBox_ge_y h1
      rw [show (⟨1.2, 1.0, 1.0⟩ : Vec3).y = 1.0 from rfl] at this
      linarith
  · constructor
    · have h1 : |p.z| - 1 ≤ |p.z - -1.0| := by
        have := abs_sub_abs_le_abs_sub p.z (-1.0:ℝ)
        rw [show |(-1.0:ℝ)| = 1 from by rw [abs_of_nonpos] <;> norm_num] at this
        linarith
      have h2 := len_ge_absz (⟨p.x - 1.1, p.y - -0.9, p.z - -1.0⟩ : Vec3)
      simp only at h2
      linarith
    · have h1 : (0:ℝ) ≤ |p.z| - (⟨1.2, 1.0, 1.0⟩ : Vec3).z := by
        rw [show (⟨1.2, 1.0, 1.0⟩ : Vec3).z = 1.0 from rfl]; linarith
      have := sdBox_ge_z h1
      rw [show (⟨1.2, 1.0, 1.0⟩ : Vec3).z = 1.0 from rfl] at this
      linarith

/-- Witness for C9 at the concrete point `(2, 0, 0)`. -/
theorem claim_C9_witness :
    (1.3 < |(⟨2, 0, 0⟩ : Vec3).x| ∨ 1.3 < |(⟨2, 0, 0⟩ : Vec3).y| ∨
      1.3 < |(⟨2, 0, 0⟩ : Vec3).z|) ∧ 0 < (map 0 0 ⟨2, 0, 0⟩).1 :=
  ⟨Or.inl (by rw [show (⟨2, 0, 0⟩ : Vec3).x = 2 from rfl]; norm_num),
   claim_C9 ⟨2, 0, 0⟩
     (Or.inl (by rw [show (⟨2, 0, 0⟩ : Vec3).x = 2 from rfl]; norm_num))⟩

/- ### Claim C2: the cylinder term and rotation -/

/-- The cylinder distance as the spec (and the code's own comment
"Use world coordinates, not rotated") describes it: evaluated on the
unrotated point `p`, Z offset by `+0.75`, X scaled by `0.125`,
`sdCappedCylinder(·, 1.0, 0.2)`. Used for the refinement comparison
against the code's `cylinderD`, which starts from the rotated point. -/
def cylinderUnrotatedSpec (p : Vec3) : ℝ :=
  sdCappedCylinder (Vec3.mulc ⟨p.x, p.y, p.z + 0.75⟩ ⟨0.125, 1.0, 1.0⟩) 1.0 0.2

theorem rotatedP_quarter_yaw : rotatedP 0 (Real.pi / 2) ⟨1, 0, 0⟩ = ⟨0, 0, 1⟩ := by
  rw [rotatedP_eq]
  simp [Real.cos_pi_div_two, Real.sin_pi_div_two, Real.cos_zero, Real.sin_zero]

/-- C2 (code bug): at pitch `0`, yaw `π/2`, point `(1,0,0)` the code's
cylinder term (built from the rotated point) evaluates to `1.55`, while
the spec's unrotated-world-space cylinder is `√0.578125 - 0.2 < 1`; the
two disagree, so the cylinder does rotate with the cube, contradicting
the spec and the code's own comment. -/
theorem claim_C2 :
    cylinderD 0 (Real.pi / 2) ⟨1, 0, 0⟩ = 1.55 ∧
      cylinderUnrotatedSpec ⟨1, 0, 0⟩ < 1 ∧
      cylinderD 0 (Real.pi / 2) ⟨1, 0, 0⟩ ≠ cylinderUnrotatedSpec ⟨1, 0, 0⟩ := by
  have hcode : cylinderD 0 (Real.pi / 2) ⟨1, 0, 0⟩ = 1.55 := by
    unfold cylinderD
    rw [rotatedP_quarter_yaw]
    simp only [Vec3.mulc]
    rw [show (⟨(0:ℝ) * 0.125, 0 * 1.0, (1 + 0.75) * 1.0⟩ : Vec3) =
      (⟨0, 0, 1.75⟩ : Vec3) from by norm_num]
    rw [sdCappedCylinder_radial (by
        rw [len2_eval_z (by norm_num), abs_of_nonneg (by norm_num : (0:ℝ) ≤ 1.75)]
        norm_num)
      (by norm_num)]
    rw [len2_eval_z (by norm_num), abs_of_nonneg (by norm_num : (0:ℝ) ≤ 1.75)]
    norm_num
  have hsqrt_ub : len2 0.125 0.75 ≤ 0.761 := by
    simp only [len2]
    rw [show (0.761:ℝ) = Real.sqrt (0.761 ^ 2) from (Real.sqrt_sq (by norm_num)).symm]
    exact Real.sqrt_le_sqrt (by norm_num)
  have hsqrt_lb : (0.76:ℝ) ≤ len2 0.125 0.75 := by
    simp only [len2]
    rw [Real.le_sqrt (by norm_num) (by norm_num)]
    norm_num
  have hspec : cylinderUnrotatedSpec ⟨1, 0, 0⟩ = len2 0.125 0.75 - 0.2 := by
    unfold cylinderUnrotatedSpec
    simp only [Vec3.mulc]
    rw [show (⟨(1:ℝ) * 0.125, 0 * 1.0, (0 + 0.75) * 1.0⟩ : Vec3) =
      (⟨0.125, 0, 0.75⟩ : Vec3) from by norm_num]
    rw [sdCappedCylinder_radial (by
        rw [abs_of_nonneg (len2_nonneg _ _)]
        have := hsqrt_lb
        rw [show (⟨0.125, 0, 0.75⟩ : Vec3).x = 0.125 from rfl,
          show (⟨0.125, 0, 0.75⟩ : Vec3).z = 0.75 from rfl]
        linarith)
      (by norm_num)]
    rw [show (⟨0.125, 0, 0.75⟩ : Vec3).x = 0.125 from rfl,
      show (⟨0.125, 0, 0.75⟩ : Vec3).z = 0.75 from rfl,
      abs_of_nonneg (len2_nonneg _ _)]
  refine ⟨hcode, ?_, ?_⟩
  · rw [hspec]; linarith
  · rw [hcode, hspec]
    intro h
    linarith

/- ### The two `calcNormal` variants -/

/-- `calcNormal` of the standalone fragment shader (`part_000`): takes an
on-surface reference sample `map(p).x` and uses one-sided backward
differences `reference - map(p - h)` along each axis, `eps = 0.001`. -/
def calcNormalFrag (pitchAngle yawAngle : ℝ) (p : Vec3) : Vec3 :=
  let eps : ℝ := 0.001
  let reference := (map pitchAngle yawAngle p).1
  Vec3.normalize
    ⟨reference - (map pitchAngle yawAngle (Vec3.sub p ⟨eps, 0, 0⟩)).1,
     reference - (map pitchAngle yawAngle (Vec3.sub p ⟨0, eps, 0⟩)).1,
     reference - (map pitchAngle yawAngle (Vec3.sub p ⟨0, 0, eps⟩)).1⟩

/-- `calcNormal` of the shader embedded in `main.mjs`: central differences
`map(p + h) - map(p - h)` along each axis, `eps = 0.001`. -/
def calcNormalMjs (pitchAngle yawAngle : ℝ) (p : Vec3) : Vec3 :=
  let eps : ℝ := 0.001
  Vec3.normalize
    ⟨(map pitchAngle yawAngle (Vec3.add p ⟨eps, 0, 0⟩)).1 -
       (map pitchAngle yawAngle (Vec3.sub p ⟨eps, 0, 0⟩)).1,
     (map pitchAngle yawAngle (Vec3.add p ⟨0, eps, 0⟩)).1 -
       (map pitchAngle yawAngle (Vec3.sub p ⟨0, eps, 0⟩)).1,
     (map pitchAngle yawAngle (Vec3.add p ⟨0, 0, eps⟩)).1 -
       (map pitchAngle yawAngle (Vec3.sub p ⟨0, 0, eps⟩)).1⟩

/-- The central-difference gradient described by the spec (section 4.4):
`(map(p+εx)-map(p-εx), map(p+εy)-map(p-εy), map(p+εz)-map(p-εz))` with
`ε = 0.001`. -/
def centralGradientSpec (pitchAngle yawAngle : ℝ) (p : Vec3) : Vec3 :=
  ⟨(map pitchAngle yawAngle (Vec3.add p ⟨0.001, 0, 0⟩)).1 -
     (map pitchAngle yawAngle (Vec3.sub p ⟨0.001, 0, 0⟩)).1,
   (map pitchAngle yawAngle (Vec3.add p ⟨0, 0.001, 0⟩)).1 -
     (map pitchAngle yawAngle (Vec3.sub p ⟨0, 0.001, 0⟩)).1,
   (map pitchAngle yawAngle (Vec3.add p ⟨0, 0, 0.001⟩)).1 -
     (map pitchAngle yawAngle (Vec3.sub p ⟨0, 0, 0.001⟩)).1⟩

/-- The one-sided backward-difference gradient actually used by the
standalone fragment shader's `calcNormal`. -/
def backwardGradientFrag (pitchAngle yawAngle : ℝ) (p : Vec3) : Vec3 :=
  ⟨(map pitchAngle yawAngle p).1 -
     (map pitchAngle yawAngle (Vec3.sub p ⟨0.001, 0, 0⟩)).1,
   (map pitchAngle yawAngle p).1 -
     (map pitchAngle yawAngle (Vec3.sub p ⟨0, 0.001, 0⟩)).1,
   (map pitchAngle yawAngle p).1 -
     (map pitchAngle yawAngle (Vec3.sub p ⟨0, 0, 0.001⟩)).1⟩

/-- A vector with a nonzero component has positive length. -/
theorem len_pos_of_x {v : Vec3} (h : v.x ≠ 0) : 0 < Vec3.len v := by
  apply Real.sqrt_pos.mpr
  have hx : 0 < v.x ^ 2 := by positivity
  nlinarith [sq_nonneg v.y, sq_nonneg v.z]

/-- `normalize` of a nonzero vector has unit length. -/
theorem len_normalize {v : Vec3} (hv : v ≠ ⟨0, 0, 0⟩) :
    Vec3.len (Vec3.normalize v) = 1 := by
  have hsum : 0 < v.x ^ 2 + v.y ^ 2 + v.z ^ 2 := by
    rcases lt_or_eq_of_le (by positivity : (0:ℝ) ≤ v.x ^ 2 + v.y ^ 2 + v.z ^ 2)
      with h | h
    · exact h
    · exfalso
      apply hv
      have hx : v.x = 0 := by nlinarith [sq_nonneg v.x, sq_nonneg v.y, sq_nonneg v.z]
      have hy : v.y = 0 := by nlinarith [sq_nonneg v.x, sq_nonneg v.y, sq_nonneg v.z]
      have hz : v.z = 0 := by nlinarith [sq_nonneg v.x, sq_nonneg v.y, sq_nonneg v.z]
      exact Vec3.ext hx hy hz
  simp only [Vec3.normalize, Vec3.len]
  rw [show (v.x / Real.sqrt (v.x ^ 2 + v.y ^ 2 + v.z ^ 2)) ^ 2 +
      (v.y / Real.sqrt (v.x ^ 2 + v.y ^ 2 + v.z ^ 2)) ^ 2 +
      (v.z / Real.sqrt (v.x ^ 2 + v.y ^ 2 + v.z ^ 2)) ^ 2 =
      (v.x ^ 2 + v.y ^ 2 + v.z ^ 2) /
        Real.sqrt (v.x ^ 2 + v.y ^ 2 + v.z ^ 2) ^ 2 from by ring]
  rw [Real.sq_sqrt hsum.le, div_self (ne_of_gt hsum), Real.sqrt_one]

/-- Upper bound on the octahedron term at zero rotation, used for the
probe points near the front face. -/
theorem octahedronD_zero_le {a b c : ℝ}
    (h1 : -0.752 ≤ a / 1.2 + b) (h1' : a / 1.2 + b ≤ 0.752)
    (h2 : -0.752 ≤ b - a / 1.2) (h2' : b - a / 1.2 ≤ 0.752)
    (h3 : -0.251 ≤ c + 1) (h3' : c + 1 ≤ 0.251) :
    octahedronD 0 0 ⟨a, b, c⟩ ≤ 0.08 := by
  rw [octahedronD_eq, rotatedP_zero]
  rw [show (⟨a, b, c⟩ : Vec3).x = a from rfl, show (⟨a, b, c⟩ : Vec3).y = b from rfl,
    show (⟨a, b, c⟩ : Vec3).z = c from rfl]
  have hs := sqrt_two_lt
  have hs2 : Real.sqrt 2 / 2 ≤ 1.4143 / 2 := by linarith
  have e1 : |a / 1.2 + b| ≤ 0.752 := abs_le.mpr ⟨h1, h1'⟩
  have e2 : |b - a / 1.2| ≤ 0.752 := abs_le.mpr ⟨h2, h2'⟩
  have e3 : |c + 1| ≤ 0.251 := abs_le.mpr ⟨h3, h3'⟩
  have b1 : Real.sqrt 2 / 2 * |a / 1.2 + b| ≤ 1.4143 / 2 * 0.752 :=
    mul_le_mul hs2 e1 (abs_nonneg _) (by norm_num)
  have b2 : Real.sqrt 2 / 2 * |b - a / 1.2| ≤ 1.4143 / 2 * 0.752 :=
    mul_le_mul hs2 e2 (abs_nonneg _) (by norm_num)
  have hE : Real.sqrt 2 / 2 * |a / 1.2 + b| + Real.sqrt 2 / 2 * |b - a / 1.2| +
      |c + 1| - 1.2 ≤ 0.1146 := by linarith
  calc (Real.sqrt 2 / 2 * |a / 1.2 + b| + Real.sqrt 2 / 2 * |b - a / 1.2| +
      |c + 1| - 1.2) * 0.57735027 ≤ 0.1146 * 0.57735027 :=
        mul_le_mul_of_nonneg_right hE (by norm_num)
    _ ≤ 0.08 := by norm_num

/-- Evaluation of `map` at zero rotation in the neighbourhood of the
front-face probe points, where the thin cylinder is the closest object:
the distance is the cylinder's radial value. -/
theorem map_cyl_zero {a b c : ℝ}
    (ha : |a| ≤ 1) (hb : |b| ≤ 0.001) (hc : |c| ≤ 0.8)
    (hlen : len2 (a * 0.125) ((c + 0.75) * 1.0) ≤ 0.113)
    (hoct : octahedronD 0 0 ⟨a, b, c⟩ ≤ 0.08) :
    (map 0 0 ⟨a, b, c⟩).1 = len2 (a * 0.125) ((c + 0.75) * 1.0) - 0.2 := by
  have hlen0 : 0 ≤ len2 (a * 0.125) ((c + 0.75) * 1.0) := len2_nonneg _ _
  have hcyl : cylinderD 0 0 ⟨a, b, c⟩ = len2 (a * 0.125) ((c + 0.75) * 1.0) - 0.2 := by
    unfold cylinderD
    rw [rotatedP_zero]
    simp only [Vec3.mulc]
    rw [sdCappedCylinder_inner (by
        rw [show (⟨a * 0.125, b * 1.0, (c + 0.75) * 1.0⟩ : Vec3).x = a * 0.125 from rfl,
          show (⟨a * 0.125, b * 1.0, (c + 0.75) * 1.0⟩ : Vec3).z = (c + 0.75) * 1.0 from rfl,
          abs_of_nonneg hlen0]
        linarith)
      (by
        rw [show (⟨a * 0.125, b * 1.0, (c + 0.75) * 1.0⟩ : Vec3).x = a * 0.125 from rfl,
          show (⟨a * 0.125, b * 1.0, (c + 0.75) * 1.0⟩ : Vec3).y = b * 1.0 from rfl,
          show (⟨a * 0.125, b * 1.0, (c + 0.75) * 1.0⟩ : Vec3).z = (c + 0.75) * 1.0 from rfl,
          abs_of_nonneg hlen0]
        have : |b * 1.0| ≤ 0.001 := by
          rw [show b * 1.0 = b from by ring]; exact hb
        linarith)]
    rw [show (⟨a * 0.125, b * 1.0, (c + 0.75) * 1.0⟩ : Vec3).x = a * 0.125 from rfl,
      show (⟨a * 0.125, b * 1.0, (c + 0.75) * 1.0⟩ : Vec3).z = (c + 0.75) * 1.0 from rfl,
      abs_of_nonneg hlen0]
  have hcube : cubeD 0 0 ⟨a, b, c⟩ ≤ -0.2 := by
    unfold cubeD
    rw [rotatedP_zero]
    rw [sdBox_inside (by rw [show (⟨a, b, c⟩ : Vec3).x = a from rfl]; linarith)
      (by rw [show (⟨a, b, c⟩ : Vec3).y = b from rfl]; linarith)
      (by rw [show (⟨a, b, c⟩ : Vec3).z = c from rfl]; linarith)]
    rw [show (⟨a, b, c⟩ : Vec3).x = a from rfl, show (⟨a, b, c⟩ : Vec3).y = b from rfl,
      show (⟨a, b, c⟩ : Vec3).z = c from rfl]
    apply max_le (by linarith)
    apply max_le (by linarith) (by linarith)
  have hcylv : cylinderD 0 0 ⟨a, b, c⟩ ≤ -0.087 := by rw [hcyl]; linarith
  have hcyc : cylinderInCubeD 0 0 ⟨a, b, c⟩ = cylinderD 0 0 ⟨a, b, c⟩ := by
    unfold cylinderInCubeD
    exact max_eq_left (by linarith)
  have hcwh : cylinderD 0 0 ⟨a, b, c⟩ ≤ cubeWithHoleD 0 0 ⟨a, b, c⟩ := by
    unfold cubeWithHoleD
    exact le_trans (by linarith) (le_max_right _ _)
  have hled : cylinderD 0 0 ⟨a, b, c⟩ ≤ ledSphereD 0 0 ⟨a, b, c⟩ :=
    le_trans (by linarith [ledSphereD_ge 0 0 (⟨a, b, c⟩ : Vec3)]) le_rfl
  rw [map_fst, hcyc, min_eq_left hcwh, min_eq_right (by linarith), hcyl]

/- ### Probe evaluations near `(0.9, 0, -0.75)` with zero rotation -/

theorem sqrtS_lb : (0.1125:ℝ) < Real.sqrt 0.01265725 := by
  rw [Real.lt_sqrt (by norm_num)]; norm_num

theorem sqrtS_ub : Real.sqrt 0.01265725 ≤ 0.113 := by
  rw [show (0.113:ℝ) = Real.sqrt (0.113 ^ 2) from (Real.sqrt_sq (by norm_num)).symm]
  exact Real.sqrt_le_sqrt (by norm_num)

theorem mapval_pstar : (map 0 0 ⟨0.9, 0, -0.75⟩).1 = -0.0875 := by
  rw [map_cyl_zero
    (by rw [abs_of_nonneg (by norm_num : (0:ℝ) ≤ 0.9)]; norm_num)
    (by rw [abs_of_nonneg le_rfl]; norm_num)
    (by rw [abs_of_nonpos (by norm_num : (-0.75:ℝ) ≤ 0)]; norm_num)
    (by
      rw [show (0.9 * 0.125 : ℝ) = 0.1125 from by norm_num,
        show ((-0.75 : ℝ) + 0.75) * 1.0 = 0 from by norm_num,
        len2_eval_x (by norm_num)]
      norm_num)
    (octahedronD_zero_le (by norm_num) (by norm_num) (by norm_num) (by norm_num)
      (by norm_num) (by norm_num))]
  rw [show (0.9 * 0.125 : ℝ) = 0.1125 from by norm_num,
    show ((-0.75 : ℝ) + 0.75) * 1.0 = 0 from by norm_num,
    len2_eval_x (by norm_num)]
  norm_num

theorem mapval_xp : (map 0 0 ⟨0.901, 0, -0.75⟩).1 = -0.0873750 := by
  rw [map_cyl_zero
    (by rw [abs_of_nonneg (by norm_num : (0:ℝ) ≤ 0.901)]; norm_num)
    (by rw [abs_of_nonneg le_rfl]; norm_num)
    (by rw [abs_of_nonpos (by norm_num : (-0.75:ℝ) ≤ 0)]; norm_num)
    (by
      rw [show (0.901 * 0.125 : ℝ) = 0.1126250 from by norm_num,
        show ((-0.75 : ℝ) + 0.75) * 1.0 = 0 from by norm_num,
        len2_eval_x (by norm_num)]
      norm_num)
    (octahedronD_zero_le (by norm_num) (by norm_num) (by norm_num) (by norm_num)
      (by norm_num) (by norm_num))]
  rw [show (0.901 * 0.125 : ℝ) = 0.1126250 from by norm_num,
    show ((-0.75 : ℝ) + 0.75) * 1.0 = 0 from by norm_num,
    len2_eval_x (by norm_num)]
  norm_num

theorem mapval_xm : (map 0 0 ⟨0.899, 0, -0.75⟩).1 = -0.0876250 := by
  rw [map_cyl_zero
    (by rw [abs_of_nonneg (by norm_num : (0:ℝ) ≤ 0.899)]; norm_num)
    (by rw [abs_of_nonneg le_rfl]; norm_num)
    (by rw [abs_of_nonpos (by norm_num : (-0.75:ℝ) ≤ 0)]; norm_num)
    (by
      rw [show (0.899 * 0.125 : ℝ) = 0.1123750 from by norm_num,
        show ((-0.75 : ℝ) + 0.75) * 1.0 = 0 from by norm_num,
        len2_eval_x (by norm_num)]
      norm_num)
    (octahedronD_zero_le (by norm_num) (by norm_num) (by norm_num) (by norm_num)
      (by norm_num) (by norm_num))]
  rw [show (0.899 * 0.125 : ℝ) = 0.1123750 from by norm_num,
    show ((-0.75 : ℝ) + 0.75) * 1.0 = 0 from by norm_num,
    len2_eval_x (by norm_num)]
  norm_num

theorem mapval_yp : (map 0 0 ⟨0.9, 0.001, -0.75⟩).1 = -0.0875 := by
  rw [map_cyl_zero
    (by rw [abs_of_nonneg (by norm_num : (0:ℝ) ≤ 0.9)]; norm_num)
    (by rw [abs_of_nonneg (by norm_num : (0:ℝ) ≤ 0.001)])
    (by rw [abs_of_nonpos (by norm_num : (-0.75:ℝ) ≤ 0)]; norm_num)
    (by
      rw [show (0.9 * 0.125 : ℝ) = 0.1125 from by norm_num,
        show ((-0.75 : ℝ) + 0.75) * 1.0 = 0 from by norm_num,
        len2_eval_x (by norm_num)]
      norm_num)
    (octahedronD_zero_le (by norm_num) (by norm_num) (by norm_num) (by norm_num)
      (by norm_num) (by norm_num))]
  rw [show (0.9 * 0.125 : ℝ) = 0.1125 from by norm_num,
    show ((-0.75 : ℝ) + 0.75) * 1.0 = 0 from by norm_num,
    len2_eval_x (by norm_num)]
  norm_num

theorem mapval_ym : (map 0 0 ⟨0.9, -0.001, -0.75⟩).1 = -0.0875 := by
  rw [map_cyl_zero
    (by rw [abs_of_nonneg (by norm_num : (0:ℝ) ≤ 0.9)]; norm_num)
    (by rw [abs_of_nonpos (by norm_num : (-0.001:ℝ) ≤ 0)]; norm_num)
    (by rw [abs_of_nonpos (by norm_num : (-0.75:ℝ) ≤ 0)]; norm_num)
    (by
      rw [show (0.9 * 0.125 : ℝ) = 0.1125 from by norm_num,
        show ((-0.75 : ℝ) + 0.75) * 1.0 = 0 from by norm_num,
        len2_eval_x (by norm_num)]
      norm_num)
    (octahedronD_zero_le (by norm_num) (by norm_num) (by norm_num) (by norm_num)
      (by norm_num) (by norm_num))]
  rw [show (0.9 * 0.125 : ℝ) = 0.1125 from by norm_num,
    show ((-0.75 : ℝ) + 0.75) * 1.0 = 0 from by norm_num,
    len2_eval_x (by norm_num)]
  norm_num

theorem mapval_zp : (map 0 0 ⟨0.9, 0, -0.749⟩).1 = Real.sqrt 0.01265725 - 0.2 := by
  rw [map_cyl_zero
    (by rw [abs_of_nonneg (by norm_num : (0:ℝ) ≤ 0.9)]; norm_num)
    (by rw [abs_of_nonneg le_rfl]; norm_num)
    (by rw [abs_of_nonpos (by norm_num : (-0.749:ℝ) ≤ 0)]; norm_num)
    (by
      simp only [len2]
      rw [show (0.9 * 0.125 : ℝ) ^ 2 + (((-0.749 : ℝ) + 0.75) * 1.0) ^ 2 =
        0.01265725 from by norm_num]
      exact sqrtS_ub)
    (octahedronD_zero_le (by norm_num) (by norm_num) (by norm_num) (by norm_num)
      (by norm_num) (by norm_num))]
  simp only [len2]
  rw [show (0.9 * 0.125 : ℝ) ^ 2 + (((-0.749 : ℝ) + 0.75) * 1.0) ^ 2 =
    0.01265725 from by norm_num]

theorem mapval_zm : (map 0 0 ⟨0.9, 0, -0.751⟩).1 = Real.sqrt 0.01265725 - 0.2 := by
  rw [map_cyl_zero
    (by rw [abs_of_nonneg (by norm_num : (0:ℝ) ≤ 0.9)]; norm_num)
    (by rw [abs_of_nonneg le_rfl]; norm_num)
    (by rw [abs_of_nonpos (by norm_num : (-0.751:ℝ) ≤ 0)]; norm_num)
    (by
      simp only [len2]
      rw [show (0.9 * 0.125 : ℝ) ^ 2 + (((-0.751 : ℝ) + 0.75) * 1.0) ^ 2 =
        0.01265725 from by norm_num]
      exact sqrtS_ub)
    (octahedronD_zero_le (by norm_num) (by norm_num) (by norm_num) (by norm_num)
      (by norm_num) (by norm_num))]
  simp only [len2]
  rw [show (0.9 * 0.125 : ℝ) ^ 2 + (((-0.751 : ℝ) + 0.75) * 1.0) ^ 2 =
    0.01265725 from by norm_num]

/- ### Gradients at the probe point and claims C4 / C5 -/

theorem normalize_x (v : Vec3) : (Vec3.normalize v).x = v.x / Vec3.len v := rfl

theorem normalize_z (v : Vec3) : (Vec3.normalize v).z = v.z / Vec3.len v := rfl

theorem len_xonly {c : ℝ} (hc : 0 ≤ c) : Vec3.len ⟨c, 0, 0⟩ = c := by
  simp only [Vec3.len]
  rw [show c ^ 2 + (0:ℝ) ^ 2 + 0 ^ 2 = c ^ 2 by ring, Real.sqrt_sq hc]

theorem backwardGradientFrag_pstar :
    backwardGradientFrag 0 0 ⟨0.9, 0, -0.75⟩ =
      ⟨0.000125, 0, 0.1125 - Real.sqrt 0.01265725⟩ := by
  unfold backwardGradientFrag
  simp only [Vec3.sub]
  rw [show (⟨(0.9:ℝ) - 0.001, 0 - 0, -0.75 - 0⟩ : Vec3) =
    (⟨0.899, 0, -0.75⟩ : Vec3) from by norm_num]
  rw [show (⟨(0.9:ℝ) - 0, 0 - 0.001, -0.75 - 0⟩ : Vec3) =
    (⟨0.9, -0.001, -0.75⟩ : Vec3) from by norm_num]
  rw [show (⟨(0.9:ℝ) - 0, 0 - 0, -0.75 - 0.001⟩ : Vec3) =
    (⟨0.9, 0, -0.751⟩ : Vec3) from by norm_num]
  rw [mapval_pstar, mapval_xm, mapval_ym, mapval_zm]
  simp only [Vec3.mk.injEq]
  refine ⟨by norm_num, by norm_num, by ring⟩

theorem centralGradientSpec_pstar :
    centralGradientSpec 0 0 ⟨0.9, 0, -0.75⟩ = ⟨0.00025, 0, 0⟩ := by
  unfold centralGradientSpec
  simp only [Vec3.add, Vec3.sub]
  rw [show (⟨(0.9:ℝ) + 0.001, 0 + 0, -0.75 + 0⟩ : Vec3) =
    (⟨0.901, 0, -0.75⟩ : Vec3) from by norm_num]
  rw [show (⟨(0.9:ℝ) - 0.001, 0 - 0, -0.75 - 0⟩ : Vec3) =
    (⟨0.899, 0, -0.75⟩ : Vec3) from by norm_num]
  rw [show (⟨(0.9:ℝ) + 0, 0 + 0.001, -0.75 + 0⟩ : Vec3) =
    (⟨0.9, 0.001, -0.75⟩ : Vec3) from by norm_num]
  rw [show (⟨(0.9:ℝ) - 0, 0 - 0.001, -0.75 - 0⟩ : Vec3) =
    (⟨0.9, -0.001, -0.75⟩ : Vec3) from by norm_num]
  rw [show (⟨(0.9:ℝ) + 0, 0 + 0, -0.75 + 0.001⟩ : Vec3) =
    (⟨0.9, 0, -0.749⟩ : Vec3) from by norm_num]
  rw [show (⟨(0.9:ℝ) - 0, 0 - 0, -0.75 - 0.001⟩ : Vec3) =
    (⟨0.9, 0, -0.751⟩ : Vec3) from by norm_num]
  rw [mapval_xp, mapval_xm, mapval_yp, mapval_ym, mapval_zp, mapval_zm]
  simp only [Vec3.mk.injEq]
  refine ⟨by norm_num, by norm_num, by ring⟩

theorem calcNormalMjs_pstar : calcNormalMjs 0 0 ⟨0.9, 0, -0.75⟩ = ⟨1, 0, 0⟩ := by
  rw [show calcNormalMjs 0 0 ⟨0.9, 0, -0.75⟩ =
    Vec3.normalize (centralGradientSpec 0 0 ⟨0.9, 0, -0.75⟩) from rfl]
  rw [centralGradientSpec_pstar]
  simp only [Vec3.normalize]
  rw [len_xonly (by norm_num)]
  simp only [Vec3.mk.injEq]
  norm_num

theorem calcNormalFrag_pstar_z_neg : (calcNormalFrag 0 0 ⟨0.9, 0, -0.75⟩).z < 0 := by
  rw [show calcNormalFrag 0 0 ⟨0.9, 0, -0.75⟩ =
    Vec3.normalize (backwardGradientFrag 0 0 ⟨0.9, 0, -0.75⟩) from rfl]
  rw [backwardGradientFrag_pstar, normalize_z]
  apply div_neg_of_neg_of_pos
  · have := sqrtS_lb
    rw [show (⟨0.000125, 0, 0.1125 - Real.sqrt 0.01265725⟩ : Vec3).z =
      0.1125 - Real.sqrt 0.01265725 from rfl]
    linarith
  · apply len_pos_of_x
    rw [show (⟨0.000125, 0, 0.1125 - Real.sqrt 0.01265725⟩ : Vec3).x =
      0.000125 from rfl]
    norm_num

/-- C4 (counterexample): at `(0.9, 0, -0.75)` with zero rotation the
standalone fragment shader's `calcNormal` differs from the normalized
central-difference gradient: its one-sided z-difference crosses the
cylinder's radial kink, giving a strictly negative z-component, while the
central difference is symmetric there and gives z-component zero. -/
theorem claim_C4_counterexample :
    calcNormalFrag 0 0 ⟨0.9, 0, -0.75⟩ ≠
      Vec3.normalize (centralGradientSpec 0 0 ⟨0.9, 0, -0.75⟩) := by
  intro h
  have hz := congrArg Vec3.z h
  rw [centralGradientSpec_pstar, normalize_z] at hz
  rw [show (⟨0.00025, 0, 0⟩ : Vec3).z = 0 from rfl, zero_div] at hz
  have := calcNormalFrag_pstar_z_neg
  rw [hz] at this
  exact lt_irrefl 0 this

/-- C4 (amended): the embedded (`main.mjs`) core's `calcNormal` is the
normalized central-difference gradient of the scene distance with step
`ε = 0.001`, and returns a unit vector whenever that gradient is nonzero;
the standalone fragment shader's `calcNormal` instead normalizes the
one-sided backward-difference gradient taken from the on-surface
reference sample. -/
theorem claim_C4 (pitchAngle yawAngle : ℝ) (p : Vec3) :
    calcNormalMjs pitchAngle yawAngle p =
      Vec3.normalize (centralGradientSpec pitchAngle yawAngle p) ∧
    calcNormalFrag pitchAngle yawAngle p =
      Vec3.normalize (backwardGradientFrag pitchAngle yawAngle p) ∧
    (centralGradientSpec pitchAngle yawAngle p ≠ ⟨0, 0, 0⟩ →
      Vec3.len (calcNormalMjs pitchAngle yawAngle p) = 1) := by
  refine ⟨rfl, rfl, fun h => ?_⟩
  rw [show calcNormalMjs pitchAngle yawAngle p =
    Vec3.normalize (centralGradientSpec pitchAngle yawAngle p) from rfl]
  exact len_normalize h

/-- Witness for C4 at the probe point: the central gradient is nonzero
there and the embedded core's normal has unit length. -/
theorem claim_C4_witness :
    centralGradientSpec 0 0 ⟨0.9, 0, -0.75⟩ ≠ ⟨0, 0, 0⟩ ∧
      Vec3.len (calcNormalMjs 0 0 ⟨0.9, 0, -0.75⟩) = 1 := by
  have hne : centralGradientSpec 0 0 ⟨0.9, 0, -0.75⟩ ≠ ⟨0, 0, 0⟩ := by
    rw [centralGradientSpec_pstar]
    intro h
    have hx : (0.00025 : ℝ) = 0 := congrArg Vec3.x h
    norm_num at hx
  exact ⟨hne, (claim_C4 0 0 ⟨0.9, 0, -0.75⟩).2.2 hne⟩

/-- C5 (counterexample): the two observed cores do not compute identical
results outside the camera constant: their `calcNormal` functions disagree
at `(0.9, 0, -0.75)` with zero rotation (one-sided versus central
differences across the cylinder's radial kink). -/
theorem claim_C5_counterexample :
    calcNormalFrag 0 0 ⟨0.9, 0, -0.75⟩ ≠ calcNormalMjs 0 0 ⟨0.9, 0, -0.75⟩ := by
  intro h
  have hz := congrArg Vec3.z h
  rw [calcNormalMjs_pstar] at hz
  rw [show (⟨1, 0, 0⟩ : Vec3).z = 0 from rfl] at hz
  have := calcNormalFrag_pstar_z_neg
  rw [hz] at this
  exact lt_irrefl 0 this

/- ### Material shaders -/

/-- `glassMaterial`: black base, fresnel and Blinn-Phong specular terms,
then a 70% blend toward gray `(0.1, 0.1, 0.1)`. The `diff` input is
ignored, as in the source. -/
def glassMaterial (normal viewDir lightDir : Vec3) (diff : ℝ) : Vec3 :=
  let baseColor : Vec3 := ⟨0.0, 0.0, 0.0⟩
  let _reflectDir := Vec3.reflect (Vec3.neg viewDir) normal
  let fresnel := (1.0 - max 0.0 (Vec3.dot viewDir normal)) ^ (3:ℕ)
  let halfDir := Vec3.normalize (Vec3.add lightDir viewDir)
  let spec := (max 0.0 (Vec3.dot normal halfDir)) ^ (64:ℕ)
  let litColor := Vec3.adds (Vec3.adds baseColor (fresnel * 0.3)) (spec * 0.8)
  Vec3.mix litColor ⟨0.1, 0.1, 0.1⟩ 0.7

/-- `plasticMaterial`: beige base scaled by the softened diffuse term
`0.4 + 0.6 * diff`, plus a low-power specular highlight. -/
def plasticMaterial (normal viewDir lightDir : Vec3) (diff : ℝ) : Vec3 :=
  let materialColor : Vec3 := ⟨0.9, 0.85, 0.7⟩
  let softDiff := 0.4 + 0.6 * diff
  let halfDir := Vec3.normalize (Vec3.add lightDir viewDir)
  let spec := (max 0.0 (Vec3.dot normal halfDir)) ^ (16:ℕ) * 0.2
  Vec3.adds (Vec3.smul softDiff materialColor) spec

/-- `ledMaterial`: returns the externally supplied emissive color,
ignoring all lighting inputs. -/
def ledMaterial (ledColor : Vec3) (normal viewDir lightDir : Vec3) (diff : ℝ) : Vec3 :=
  ledColor

/- ### Ray marcher -/

/-- The body of `rayMarch`'s `for` loop, with the remaining iteration
count as fuel: each iteration evaluates `map` at `ro + t * rd`, records
the material id, breaks when `d < 0.001` or `t > 100.0`, and otherwise
advances `t` by the distance. -/
def rayMarchLoop (pitchAngle yawAngle : ℝ) (ro rd : Vec3) :
    ℕ → ℝ → ℝ → ℝ × ℝ
  | 0, t, materialId => (t, materialId)
  | Nat.succ n, t, _materialId =>
    let result := map pitchAngle yawAngle (Vec3.add ro (Vec3.smul t rd))
    if result.1 < 0.001 ∨ t > 100.0 then (t, result.2)
    else rayMarchLoop pitchAngle yawAngle ro rd n (t + result.1) result.2

/-- `rayMarch(ro, rd)`: up to 100 sphere-tracing iterations starting from
`t = 0` with the material id initialized to `-1.0`. -/
def rayMarch (pitchAngle yawAngle : ℝ) (ro rd : Vec3) : ℝ × ℝ :=
  rayMarchLoop pitchAngle yawAngle ro rd 100 0.0 (-1.0)

/- ### Pixel pipeline -/

/-- The material dispatch of `main`: glass, then plastic, then LED, with a
diagnostic magenta fallback for any other id. -/
def shade (ledColor : Vec3) (materialId : ℝ)
    (normal viewDir lightDir : Vec3) (diff : ℝ) : Vec3 :=
  if materialId = MATERIAL_GLASS then glassMaterial normal viewDir lightDir diff
  else if materialId = MATERIAL_PLASTIC then
    plasticMaterial normal viewDir lightDir diff
  else if materialId = MATERIAL_LED then
    ledMaterial ledColor normal viewDir lightDir diff
  else ⟨1.0, 0.0, 1.0⟩

/-- Componentwise gamma correction `pow(color, 1/2.2)`. -/
def gammaCorrect (c : Vec3) : Vec3 :=
  ⟨c.x ^ ((1:ℝ) / 2.2), c.y ^ ((1:ℝ) / 2.2), c.z ^ ((1:ℝ) / 2.2)⟩

/-- An RGBA output color. -/
@[ext] structure Color4 where
  r : ℝ
  g : ℝ
  b : ℝ
  a : ℝ

/-- The camera ray direction of `main`: map `v_uv` to `[-1, 1]`, scale X
by the aspect ratio, then `normalize(vec3(uv, 1.0))`. -/
def rdFor (v_uv resolution : ℝ × ℝ) : Vec3 :=
  let uv0 : ℝ × ℝ := ((v_uv.1 - 0.5) * 2.0, (v_uv.2 - 0.5) * 2.0)
  let uv : ℝ × ℝ := (uv0.1 * (resolution.1 / resolution.2), uv0.2)
  Vec3.normalize ⟨uv.1, uv.2, 1.0⟩

/-- The shared pixel pipeline `main`, parametrized by the camera Z offset
and the normal estimator — the only two points where the two observed
shader cores differ. -/
def pixelMain (camZ : ℝ) (cn : ℝ → ℝ → Vec3 → Vec3)
    (v_uv resolution : ℝ × ℝ) (pitchAngle yawAngle : ℝ) (ledColor : Vec3) :
    Color4 :=
  let ro : Vec3 := ⟨0.0, 0.0, camZ⟩
  let rd := rdFor v_uv resolution
  let marchResult := rayMarch pitchAngle yawAngle ro rd
  let t := marchResult.1
  let materialId := marchResult.2
  if t < 100.0 then
    let p := Vec3.add ro (Vec3.smul t rd)
    let normal := cn pitchAngle yawAngle p
    let lightDir := Vec3.normalize ⟨0.5, 0.5, -1.0⟩
    let viewDir := Vec3.normalize (Vec3.neg rd)
    let diff := max 0.0 (Vec3.dot normal lightDir)
    let litColor := shade ledColor materialId normal viewDir lightDir diff
    let gc := gammaCorrect litColor
    ⟨gc.x, gc.y, gc.z, 1.0⟩
  else ⟨0.0, 0.0, 0.0, 0.0⟩

/-- The `main` of the standalone fragment shader (`part_000`): camera at
`(0, 0, -2.35)`, one-sided `calcNormal`. -/
def mainFrag (v_uv resolution : ℝ × ℝ) (pitchAngle yawAngle : ℝ)
    (ledColor : Vec3) : Color4 :=
  let ro : Vec3 := ⟨0.0, 0.0, -2.35⟩
  let rd := rdFor v_uv resolution
  let marchResult := rayMarch pitchAngle yawAngle ro rd
  let t := marchResult.1
  let materialId := marchResult.2
  if t < 100.0 then
    let p := Vec3.add ro (Vec3.smul t rd)
    let normal := calcNormalFrag pitchAngle yawAngle p
    let lightDir := Vec3.normalize ⟨0.5, 0.5, -1.0⟩
    let viewDir := Vec3.normalize (Vec3.neg rd)
    let diff := max 0.0 (Vec3.dot normal lightDir)
    let litColor := shade ledColor materialId normal viewDir lightDir diff
    let gc := gammaCorrect litColor
    ⟨gc.x, gc.y, gc.z, 1.0⟩
  else ⟨0.0, 0.0, 0.0, 0.0⟩

/-- The `main` of the shader embedded in `main.mjs`: camera at
`(0, 0, -2.75)`, central-difference `calcNormal`. -/
def mainMjs (v_uv resolution : ℝ × ℝ) (pitchAngle yawAngle : ℝ)
    (ledColor : Vec3) : Color4 :=
  let ro : Vec3 := ⟨0.0, 0.0, -2.75⟩
  let rd := rdFor v_uv resolution
  let marchResult := rayMarch pitchAngle yawAngle ro rd
  let t := marchResult.1
  let materialId := marchResult.2
  if t < 100.0 then
    let p := Vec3.add ro (Vec3.smul t rd)
    let normal := calcNormalMjs pitchAngle yawAngle p
    let lightDir := Vec3.normalize ⟨0.5, 0.5, -1.0⟩
    let viewDir := Vec3.normalize (Vec3.neg rd)
    let diff := max 0.0 (Vec3.dot normal lightDir)
    let litColor := shade ledColor materialId normal viewDir lightDir diff
    let gc := gammaCorrect litColor
    ⟨gc.x, gc.y, gc.z, 1.0⟩
  else ⟨0.0, 0.0, 0.0, 0.0⟩

/-- C5 (amended): the two observed cores are both instances of the same
pixel pipeline over the same primitives, rotation, `map`, ray marcher and
material shaders, differing in exactly two parameters: the camera Z
offset (`-2.35` versus `-2.75`) and the `calcNormal` variant (one-sided
versus central differences). -/
theorem claim_C5 :
    mainFrag = pixelMain (-2.35) calcNormalFrag ∧
      mainMjs = pixelMain (-2.75) calcNormalMjs :=
  ⟨rfl, rfl⟩

/- ### Claim C7: material ids from the marcher -/

/-- `map` only ever tags one of the three materials. -/
theorem map_material_mem (pitchAngle yawAngle : ℝ) (p : Vec3) :
    (map pitchAngle yawAngle p).2 = MATERIAL_PLASTIC ∨
      (map pitchAngle yawAngle p).2 = MATERIAL_GLASS ∨
      (map pitchAngle yawAngle p).2 = MATERIAL_LED := by
  rw [map_snd]
  split_ifs
  · right; right; rfl
  · right; left; rfl
  · left; rfl

/-- One-step unfolding of the marching loop at a successor fuel value. -/
theorem rayMarchLoop_succ (pitchAngle yawAngle : ℝ) (ro rd : Vec3) (n : ℕ)
    (t m : ℝ) :
    rayMarchLoop pitchAngle yawAngle ro rd (Nat.succ n) t m =
      if (map pitchAngle yawAngle (Vec3.add ro (Vec3.smul t rd))).1 < 0.001 ∨
          t > 100.0
      then (t, (map pitchAngle yawAngle (Vec3.add ro (Vec3.smul t rd))).2)
      else rayMarchLoop pitchAngle yawAngle ro rd n
        (t + (map pitchAngle yawAngle (Vec3.add ro (Vec3.smul t rd))).1)
        (map pitchAngle yawAngle (Vec3.add ro (Vec3.smul t rd))).2 := by
  simp only [rayMarchLoop]

/-- The marching loop preserves the three-material invariant. -/
theorem rayMarchLoop_material (pitchAngle yawAngle : ℝ) (ro rd : Vec3) :
    ∀ (n : ℕ) (t m : ℝ),
      (m = MATERIAL_PLASTIC ∨ m = MATERIAL_GLASS ∨ m = MATERIAL_LED) →
      ((rayMarchLoop pitchAngle yawAngle ro rd n t m).2 = MATERIAL_PLASTIC ∨
       (rayMarchLoop pitchAngle yawAngle ro rd n t m).2 = MATERIAL_GLASS ∨
       (rayMarchLoop pitchAngle yawAngle ro rd n t m).2 = MATERIAL_LED)
  | 0, t, m, hm => hm
  | Nat.succ n, t, m, _hm => by
    simp only [rayMarchLoop]
    split_ifs
    · exact map_material_mem pitchAngle yawAngle _
    · exact rayMarchLoop_material pitchAngle yawAngle ro rd n _ _
        (map_material_mem pitchAngle yawAngle _)

/-- C7: `rayMarch` always returns one of the three material ids tagged by
`map` — the loop runs at least one iteration and every exit path returns
the id of the last `map` sample — so the pixel pipeline's
diagnostic-magenta fallback branch of the material dispatch is never
taken: for marched ids the dispatch equals the same chain without the
fallback. -/
theorem claim_C7 (pitchAngle yawAngle : ℝ) (ro rd : Vec3)
    (ledColor normal viewDir lightDir : Vec3) (diff : ℝ) :
    ((rayMarch pitchAngle yawAngle ro rd).2 = MATERIAL_PLASTIC ∨
     (rayMarch pitchAngle yawAngle ro rd).2 = MATERIAL_GLASS ∨
     (rayMarch pitchAngle yawAngle ro rd).2 = MATERIAL_LED) ∧
    shade ledColor (rayMarch pitchAngle yawAngle ro rd).2
        normal viewDir lightDir diff =
      (if (rayMarch pitchAngle yawAngle ro rd).2 = MATERIAL_GLASS then
        glassMaterial normal viewDir lightDir diff
      else if (rayMarch pitchAngle yawAngle ro rd).2 = MATERIAL_PLASTIC then
        plasticMaterial normal viewDir lightDir diff
      else ledMaterial ledColor normal viewDir lightDir diff) := by
  have hmem : (rayMarch pitchAngle yawAngle ro rd).2 = MATERIAL_PLASTIC ∨
      (rayMarch pitchAngle yawAngle ro rd).2 = MATERIAL_GLASS ∨
      (rayMarch pitchAngle yawAngle ro rd).2 = MATERIAL_LED := by
    unfold rayMarch
    rw [show (100:ℕ) = Nat.succ 99 from rfl, rayMarchLoop_succ]
    split_ifs
    · exact map_material_mem pitchAngle yawAngle _
    · exact rayMarchLoop_material pitchAngle yawAngle ro rd 99 _ _
        (map_material_mem pitchAngle yawAngle _)
  refine ⟨hmem, ?_⟩
  rcases hmem with h | h | h <;> rw [h] <;>
    norm_num [shade, MATERIAL_PLASTIC, MATERIAL_GLASS, MATERIAL_LED]

/- ### Claim C10: plastic shading exceeds 1 -/

/-- C10: with normal, view and light all equal to one unit vector and a
diffuse term of 1, the half vector equals the normal, so the red
component of `plasticMaterial` is `0.9 * (0.4 + 0.6) + 0.2 = 1.1 > 1`:
the shading functions do not clamp their output to `[0, 1]`. -/
theorem claim_C10 (n : Vec3) (h : Vec3.len n = 1) :
    (plasticMaterial n n n 1).x = 1.1 ∧ 1 < (plasticMaterial n n n 1).x := by
  have hS : n.x ^ 2 + n.y ^ 2 + n.z ^ 2 = 1 := by
    have h4 := congrArg (fun t => t ^ 2) h
    simp only [Vec3.len] at h4
    rw [Real.sq_sqrt (by positivity)] at h4
    simpa using h4
  have hlen4 : Vec3.len (Vec3.add n n) = 2 := by
    simp only [Vec3.len, Vec3.add]
    rw [show (n.x + n.x) ^ 2 + (n.y + n.y) ^ 2 + (n.z + n.z) ^ 2 = 4 from by
      linear_combination 4 * hS]
    rw [show (4:ℝ) = 2 ^ 2 from by norm_num, Real.sqrt_sq (by norm_num)]
  have hhalf : Vec3.normalize (Vec3.add n n) = n := by
    simp only [Vec3.normalize]
    rw [hlen4]
    apply Vec3.ext
    · rw [show (Vec3.add n n).x = n.x + n.x from rfl]; ring
    · rw [show (Vec3.add n n).y = n.y + n.y from rfl]; ring
    · rw [show (Vec3.add n n).z = n.z + n.z from rfl]; ring
  have hdot : Vec3.dot n n = 1 := by
    simp only [Vec3.dot]
    linear_combination hS
  have hx : (plasticMaterial n n n 1).x = 1.1 := by
    simp only [plasticMaterial]
    rw [hhalf, hdot]
    rw [show max 0.0 (1:ℝ) = 1 from by norm_num, one_pow]
    rw [show (Vec3.adds (Vec3.smul (0.4 + 0.6 * 1) ⟨0.9, 0.85, 0.7⟩)
      (1 * 0.2)).x = (0.4 + 0.6 * 1) * 0.9 + 1 * 0.2 from rfl]
    norm_num
  exact ⟨hx, by rw [hx]; norm_num⟩

/-- Witness for C10 at the unit vector `(0, 0, 1)`. -/
theorem claim_C10_witness :
    Vec3.len ⟨0, 0, 1⟩ = 1 ∧
      (plasticMaterial ⟨0, 0, 1⟩ ⟨0, 0, 1⟩ ⟨0, 0, 1⟩ 1).x = 1.1 ∧
      1 < (plasticMaterial ⟨0, 0, 1⟩ ⟨0, 0, 1⟩ ⟨0, 0, 1⟩ 1).x := by
  have hl : Vec3.len ⟨0, 0, 1⟩ = 1 := len_zzonly (by norm_num)
  exact ⟨hl, claim_C10 ⟨0, 0, 1⟩ hl⟩

/- ### Claim C8: miss handling and the escaping axis ray -/

theorem cubeD_axis {z : ℝ} (hz : z ≤ -1) : cubeD 0 0 ⟨0, 0, z⟩ = -z - 1 := by
  unfold cubeD
  rw [rotatedP_zero]
  rw [sdBox_front (by rw [show (⟨0, 0, z⟩ : Vec3).x = 0 from rfl]; norm_num)
    (by rw [show (⟨0, 0, z⟩ : Vec3).y = 0 from rfl]; norm_num)
    (by rw [show (⟨0, 0, z⟩ : Vec3).z = z from rfl,
      abs_of_nonpos (by linarith)]; norm_num; linarith)]
  rw [show (⟨0, 0, z⟩ : Vec3).z = z from rfl, abs_of_nonpos (by linarith)]
  norm_num

theorem ledSphereD_axis_ge {z : ℝ} (hz : z ≤ -2.35) (hz2 : -51.49 ≤ z) :
    -z - 1 ≤ ledSphereD 0 0 ⟨0, 0, z⟩ := by
  unfold ledSphereD
  rw [rotatedP_zero]
  simp only [sdSphere, Vec3.sub, Vec3.len]
  have hle : -z - 0.98 ≤
      Real.sqrt (((⟨0, 0, z⟩ : Vec3).x - 1.1) ^ 2 +
        ((⟨0, 0, z⟩ : Vec3).y - -0.9) ^ 2 + ((⟨0, 0, z⟩ : Vec3).z - -1.0) ^ 2) := by
    rw [show (⟨0, 0, z⟩ : Vec3).x = 0 from rfl, show (⟨0, 0, z⟩ : Vec3).y = 0 from rfl,
      show (⟨0, 0, z⟩ : Vec3).z = z from rfl]
    rw [Real.le_sqrt (by linarith) (by positivity)]
    nlinarith
  linarith

theorem map_axis {z : ℝ} (hz : z ≤ -2.35) (hz2 : -51.49 ≤ z) :
    map 0 0 ⟨0, 0, z⟩ = (-z - 1, MATERIAL_PLASTIC) := by
  have hcube := cubeD_axis (by linarith : z ≤ -1)
  have hled := ledSphereD_axis_ge hz hz2
  have hoct := octahedronD_ge 0 0 (⟨0, 0, z⟩ : Vec3)
  rw [map_eval_cube 0 0 _ (by rw [hcube]; linarith) (by rw [hcube]; linarith), hcube]

theorem map_axis_far_ge :
    (86.38:ℝ) ≤ (map 0 0 ⟨0, 0, -87.4⟩).1 := by
  refine le_trans ?_ (map_fst_ge 0 0 _)
  have hcube : cubeD 0 0 ⟨0, 0, -87.4⟩ = 86.4 := by
    rw [cubeD_axis (by norm_num)]; norm_num
  have hled : (86.38:ℝ) ≤ ledSphereD 0 0 ⟨0, 0, -87.4⟩ := by
    unfold ledSphereD
    rw [rotatedP_zero]
    simp only [sdSphere, Vec3.sub]
    have h2 := len_ge_absz (⟨(⟨0, 0, -87.4⟩ : Vec3).x - 1.1,
      (⟨0, 0, -87.4⟩ : Vec3).y - -0.9, (⟨0, 0, -87.4⟩ : Vec3).z - -1.0⟩ : Vec3)
    rw [show (⟨(⟨0, 0, -87.4⟩ : Vec3).x - 1.1, (⟨0, 0, -87.4⟩ : Vec3).y - -0.9,
      (⟨0, 0, -87.4⟩ : Vec3).z - -1.0⟩ : Vec3).z = (-87.4 : ℝ) - -1.0 from rfl,
      abs_of_nonpos (by norm_num)] at h2
    have : (86.4:ℝ) ≤ Vec3.len ⟨(⟨0, 0, -87.4⟩ : Vec3).x - 1.1,
        (⟨0, 0, -87.4⟩ : Vec3).y - -0.9, (⟨0, 0, -87.4⟩ : Vec3).z - -1.0⟩ := by
      calc (86.4:ℝ) = -((-87.4:ℝ) - -1.0) := by norm_num
        _ ≤ _ := h2
    linarith
  rw [le_min_iff, hcube]
  exact ⟨hled, by norm_num⟩

/-- A non-terminating marching step: when the sample distance is at least
`eps` and `t` has not escaped, the loop advances `t` by the distance. -/
theorem rayMarchLoop_step (pitchAngle yawAngle : ℝ) (ro rd : Vec3) (n : ℕ)
    (t m d m' : ℝ)
    (hmap : map pitchAngle yawAngle (Vec3.add ro (Vec3.smul t rd)) = (d, m'))
    (hd : ¬ (d < 0.001 ∨ t > 100.0)) :
    rayMarchLoop pitchAngle yawAngle ro rd (Nat.succ n) t m =
      rayMarchLoop pitchAngle yawAngle ro rd n (t + d) m' := by
  rw [rayMarchLoop_succ, hmap]
  rw [if_neg (by simpa using hd)]

/-- The `t > maxDist` break of the marching loop. -/
theorem rayMarchLoop_break (pitchAngle yawAngle : ℝ) (ro rd : Vec3) (n : ℕ)
    (t m : ℝ) (ht : t > 100.0) :
    rayMarchLoop pitchAngle yawAngle ro rd (Nat.succ n) t m =
      (t, (map pitchAngle yawAngle (Vec3.add ro (Vec3.smul t rd))).2) := by
  rw [rayMarchLoop_succ, if_pos (Or.inr ht)]

/-- The ray `(0,0,-1)` from `(0,0,-2.35)` escapes: after seven doubling
steps the accumulated distance exceeds the `maxDist` bound of 100, and
the marcher exits by the `t > 100` break. -/
theorem rayMarch_miss :
    100 < (rayMarch 0 0 ⟨0, 0, -2.35⟩ ⟨0, 0, -1⟩).1 := by
  have hpt : ∀ t z : ℝ, -2.35 + t * (-1) = z →
      Vec3.add ⟨0, 0, (-2.35:ℝ)⟩ (Vec3.smul t ⟨0, 0, -1⟩) = ⟨0, 0, z⟩ := by
    intro t z hz
    simp only [Vec3.add, Vec3.smul, Vec3.mk.injEq]
    refine ⟨by ring, by ring, by linarith⟩
  have hmapat : ∀ t z d : ℝ, -2.35 + t * (-1) = z → z ≤ -2.35 → -51.49 ≤ z →
      -z - 1 = d →
      map 0 0 (Vec3.add ⟨0, 0, (-2.35:ℝ)⟩ (Vec3.smul t ⟨0, 0, -1⟩)) =
        (d, MATERIAL_PLASTIC) := by
    intro t z d h1 h2 h3 h4
    rw [hpt t z h1, map_axis h2 h3, h4]
  have s1 : rayMarchLoop 0 0 ⟨0, 0, (-2.35:ℝ)⟩ ⟨0, 0, (-1:ℝ)⟩ 100 0.0 (-1.0) =
      rayMarchLoop 0 0 ⟨0, 0, -2.35⟩ ⟨0, 0, -1⟩ 99 (0.0 + 1.35) MATERIAL_PLASTIC :=
    rayMarchLoop_step 0 0 _ _ 99 0.0 (-1.0) 1.35 MATERIAL_PLASTIC
      (hmapat 0.0 (-2.35) 1.35 (by norm_num) (by norm_num) (by norm_num) (by norm_num))
      (by norm_num)
  have s2 : rayMarchLoop 0 0 ⟨0, 0, (-2.35:ℝ)⟩ ⟨0, 0, (-1:ℝ)⟩ 99
        (0.0 + 1.35) MATERIAL_PLASTIC =
      rayMarchLoop 0 0 ⟨0, 0, -2.35⟩ ⟨0, 0, -1⟩ 98
        (0.0 + 1.35 + 2.7) MATERIAL_PLASTIC :=
    rayMarchLoop_step 0 0 _ _ 98 (0.0 + 1.35) MATERIAL_PLASTIC 2.7 MATERIAL_PLASTIC
      (hmapat _ (-3.7) 2.7 (by norm_num) (by norm_num) (by norm_num) (by norm_num))
      (by norm_num)
  have s3 : rayMarchLoop 0 0 ⟨0, 0, (-2.35:ℝ)⟩ ⟨0, 0, (-1:ℝ)⟩ 98
        (0.0 + 1.35 + 2.7) MATERIAL_PLASTIC =
      rayMarchLoop 0 0 ⟨0, 0, -2.35⟩ ⟨0, 0, -1⟩ 97
        (0.0 + 1.35 + 2.7 + 5.4) MATERIAL_PLASTIC :=
    rayMarchLoop_step 0 0 _ _ 97 (0.0 + 1.35 + 2.7) MATERIAL_PLASTIC 5.4
      MATERIAL_PLASTIC
      (hmapat _ (-6.4) 5.4 (by norm_num) (by norm_num) (by norm_num) (by norm_num))
      (by norm_num)
  have s4 : rayMarchLoop 0 0 ⟨0, 0, (-2.35:ℝ)⟩ ⟨0, 0, (-1:ℝ)⟩ 97
        (0.0 + 1.35 + 2.7 + 5.4) MATERIAL_PLASTIC =
      rayMarchLoop 0 0 ⟨0, 0, -2.35⟩ ⟨0, 0, -1⟩ 96
        (0.0 + 1.35 + 2.7 + 5.4 + 10.8) MATERIAL_PLASTIC :=
    rayMarchLoop_step 0 0 _ _ 96 (0.0 + 1.35 + 2.7 + 5.4) MATERIAL_PLASTIC 10.8
      MATERIAL_PLASTIC
      (hmapat _ (-11.8) 10.8 (by norm_num) (by norm_num) (by norm_num) (by norm_num))
      (by norm_num)
  have s5 : rayMarchLoop 0 0 ⟨0, 0, (-2.35:ℝ)⟩ ⟨0, 0, (-1:ℝ)⟩ 96
        (0.0 + 1.35 + 2.7 + 5.4 + 10.8) MATERIAL_PLASTIC =
      rayMarchLoop 0 0 ⟨0, 0, -2.35⟩ ⟨0, 0, -1⟩ 95
        (0.0 + 1.35 + 2.7 + 5.4 + 10.8 + 21.6) MATERIAL_PLASTIC :=
    rayMarchLoop_step 0 0 _ _ 95 (0.0 + 1.35 + 2.7 + 5.4 + 10.8) MATERIAL_PLASTIC
      21.6 MATERIAL_PLASTIC
      (hmapat _ (-22.6) 21.6 (by norm_num) (by norm_num) (by norm_num) (by norm_num))
      (by norm_num)
  have s6 : rayMarchLoop 0 0 ⟨0, 0, (-2.35:ℝ)⟩ ⟨0, 0, (-1:ℝ)⟩ 95
        (0.0 + 1.35 + 2.7 + 5.4 + 10.8 + 21.6) MATERIAL_PLASTIC =
      rayMarchLoop 0 0 ⟨0, 0, -2.35⟩ ⟨0, 0, -1⟩ 94
        (0.0 + 1.35 + 2.7 + 5.4 + 10.8 + 21.6 + 43.2) MATERIAL_PLASTIC :=
    rayMarchLoop_step 0 0 _ _ 94 (0.0 + 1.35 + 2.7 + 5.4 + 10.8 + 21.6)
      MATERIAL_PLASTIC 43.2 MATERIAL_PLASTIC
      (hmapat _ (-44.2) 43.2 (by norm_num) (by norm_num) (by norm_num) (by norm_num))
      (by norm_num)
  have hpt6 : Vec3.add ⟨0, 0, (-2.35:ℝ)⟩
      (Vec3.smul (0.0 + 1.35 + 2.7 + 5.4 + 10.8 + 21.6 + 43.2) ⟨0, 0, -1⟩) =
      ⟨0, 0, -87.4⟩ := hpt _ _ (by norm_num)
  have hd6 := map_axis_far_ge
  have s7 : rayMarchLoop 0 0 ⟨0, 0, (-2.35:ℝ)⟩ ⟨0, 0, (-1:ℝ)⟩ 94
        (0.0 + 1.35 + 2.7 + 5.4 + 10.8 + 21.6 + 43.2) MATERIAL_PLASTIC =
      rayMarchLoop 0 0 ⟨0, 0, -2.35⟩ ⟨0, 0, -1⟩ 93
        (0.0 + 1.35 + 2.7 + 5.4 + 10.8 + 21.6 + 43.2 +
          (map 0 0 ⟨0, 0, -87.4⟩).1) (map 0 0 ⟨0, 0, -87.4⟩).2 :=
    rayMarchLoop_step 0 0 _ _ 93 (0.0 + 1.35 + 2.7 + 5.4 + 10.8 + 21.6 + 43.2)
      MATERIAL_PLASTIC (map 0 0 ⟨0, 0, -87.4⟩).1 (map 0 0 ⟨0, 0, -87.4⟩).2
      (by rw [hpt6])
      (by push_neg; exact ⟨by linarith, by norm_num⟩)
  have s8 : rayMarchLoop 0 0 ⟨0, 0, (-2.35:ℝ)⟩ ⟨0, 0, (-1:ℝ)⟩ 93
        (0.0 + 1.35 + 2.7 + 5.4 + 10.8 + 21.6 + 43.2 +
          (map 0 0 ⟨0, 0, -87.4⟩).1) (map 0 0 ⟨0, 0, -87.4⟩).2 =
      (0.0 + 1.35 + 2.7 + 5.4 + 10.8 + 21.6 + 43.2 + (map 0 0 ⟨0, 0, -87.4⟩).1,
        (map 0 0 (Vec3.add ⟨0, 0, -2.35⟩
          (Vec3.smul (0.0 + 1.35 + 2.7 + 5.4 + 10.8 + 21.6 + 43.2 +
            (map 0 0 ⟨0, 0, -87.4⟩).1) ⟨0, 0, -1⟩))).2) :=
    rayMarchLoop_break 0 0 _ _ 92 _ _ (by linarith)
  show 100 < (rayMarchLoop 0 0 ⟨0, 0, (-2.35:ℝ)⟩ ⟨0, 0, (-1:ℝ)⟩ 100 0.0 (-1.0)).1
  rw [s1, s2, s3, s4, s5, s6, s7, s8]
  show (100:ℝ) < 0.0 + 1.35 + 2.7 + 5.4 + 10.8 + 21.6 + 43.2 +
    (map 0 0 ⟨0, 0, -87.4⟩).1
  linarith

/-- C8: the pipeline's alpha is 1 exactly on a hit (`t < 100`) and the
whole output is the transparent zero color on a miss; and the concrete
ray from `(0,0,-2.35)` with direction `(0,0,-1)` (pointing away from all
geometry) escapes past `maxDist = 100`, the miss case. -/
theorem claim_C8 (v_uv resolution : ℝ × ℝ) (pitchAngle yawAngle : ℝ)
    (ledColor : Vec3) :
    ((mainFrag v_uv resolution pitchAngle yawAngle ledColor).a =
      if (rayMarch pitchAngle yawAngle ⟨0.0, 0.0, -2.35⟩
          (rdFor v_uv resolution)).1 < 100.0 then 1.0 else 0.0) ∧
    ((mainFrag v_uv resolution pitchAngle yawAngle ledColor) =
        ⟨0.0, 0.0, 0.0, 0.0⟩ ∨
      (rayMarch pitchAngle yawAngle ⟨0.0, 0.0, -2.35⟩
        (rdFor v_uv resolution)).1 < 100.0) ∧
    100 < (rayMarch 0 0 ⟨0, 0, -2.35⟩ ⟨0, 0, -1⟩).1 := by
  refine ⟨?_, ?_, rayMarch_miss⟩
  · simp only [mainFrag]
    split_ifs <;> rfl
  · by_cases h : (rayMarch pitchAngle yawAngle ⟨0.0, 0.0, -2.35⟩
        (rdFor v_uv resolution)).1 < 100.0
    · exact Or.inr h
    · left
      simp only [mainFrag]
      rw [if_neg h]

/- ### Claim C6 (amended part): output component bounds -/

/-- Cauchy-Schwarz for the dot product, squared form. -/
theorem dot_sq_le (u v : Vec3) :
    (Vec3.dot u v) ^ 2 ≤
      (u.x ^ 2 + u.y ^ 2 + u.z ^ 2) * (v.x ^ 2 + v.y ^ 2 + v.z ^ 2) := by
  simp only [Vec3.dot]
  nlinarith [sq_nonneg (u.x * v.y - u.y * v.x), sq_nonneg (u.x * v.z - u.z * v.x),
    sq_nonneg (u.y * v.z - u.z * v.y)]

/-- Cauchy-Schwarz: the dot product is at most the product of lengths. -/
theorem dot_le_len (u v : Vec3) : Vec3.dot u v ≤ Vec3.len u * Vec3.len v := by
  have h1 : Vec3.dot u v ≤ |Vec3.dot u v| := le_abs_self _
  have h2 : |Vec3.dot u v| = Real.sqrt ((Vec3.dot u v) ^ 2) :=
    (Real.sqrt_sq_eq_abs _).symm
  have h3 : Real.sqrt ((Vec3.dot u v) ^ 2) ≤
      Real.sqrt ((u.x ^ 2 + u.y ^ 2 + u.z ^ 2) * (v.x ^ 2 + v.y ^ 2 + v.z ^ 2)) :=
    Real.sqrt_le_sqrt (dot_sq_le u v)
  rw [Real.sqrt_mul (by positivity)] at h3
  simp only [Vec3.len]
  linarith [h2 ▸ h1]

/-- `normalize` never produces a vector longer than 1 (it returns the
zero vector on zero input in this model). -/
theorem len_normalize_le (v : Vec3) : Vec3.len (Vec3.normalize v) ≤ 1 := by
  by_cases h : v = ⟨0, 0, 0⟩
  · subst h
    simp only [Vec3.normalize, Vec3.len]
    norm_num
  · rw [len_normalize h]

/-- All components of `glassMaterial` are nonnegative when the normal and
view vectors have length at most 1 (so the fresnel base stays
nonnegative). -/
theorem glassMaterial_nonneg (normal viewDir lightDir : Vec3) (diff : ℝ)
    (hn : Vec3.len normal ≤ 1) (hv : Vec3.len viewDir ≤ 1) :
    0 ≤ (glassMaterial normal viewDir lightDir diff).x ∧
    0 ≤ (glassMaterial normal viewDir lightDir diff).y ∧
    0 ≤ (glassMaterial normal viewDir lightDir diff).z := by
  have hd : Vec3.dot viewDir normal ≤ 1 := by
    have h1 := dot_le_len viewDir normal
    have h2 : Vec3.len viewDir * Vec3.len normal ≤ 1 :=
      mul_le_one₀ hv (len_nonneg _) hn
    linarith
  have hfres : 0 ≤ (1.0 - max 0.0 (Vec3.dot viewDir normal)) ^ (3:ℕ) := by
    apply pow_nonneg
    have : max 0.0 (Vec3.dot viewDir normal) ≤ 1 := max_le (by norm_num) hd
    linarith
  have hspec : 0 ≤ (max 0.0 (Vec3.dot normal
      (Vec3.normalize (Vec3.add lightDir viewDir)))) ^ (64:ℕ) :=
    pow_nonneg (le_max_of_le_left (by norm_num)) _
  simp only [glassMaterial, Vec3.mix, Vec3.adds]
  refine ⟨?_, ?_, ?_⟩ <;> nlinarith

/-- All components of `plasticMaterial` are nonnegative for a nonnegative
diffuse term. -/
theorem plasticMaterial_nonneg (normal viewDir lightDir : Vec3) (diff : ℝ)
    (hd : 0 ≤ diff) :
    0 ≤ (plasticMaterial normal viewDir lightDir diff).x ∧
    0 ≤ (plasticMaterial normal viewDir lightDir diff).y ∧
    0 ≤ (plasticMaterial normal viewDir lightDir diff).z := by
  have hspec : 0 ≤ (max 0.0 (Vec3.dot normal
      (Vec3.normalize (Vec3.add lightDir viewDir)))) ^ (16:ℕ) * 0.2 := by
    apply mul_nonneg (pow_nonneg (le_max_of_le_left (by norm_num)) _) (by norm_num)
  simp only [plasticMaterial, Vec3.adds, Vec3.smul]
  refine ⟨?_, ?_, ?_⟩ <;> nlinarith

/-- The material dispatch produces nonnegative components whenever the
emissive color is nonnegative, the normal and view vectors are at most
unit length, and the diffuse term is nonnegative (the magenta fallback is
also nonnegative). -/
theorem shade_nonneg (ledColor : Vec3) (materialId : ℝ)
    (normal viewDir lightDir : Vec3) (diff : ℝ)
    (hn : Vec3.len normal ≤ 1) (hv : Vec3.len viewDir ≤ 1) (hd : 0 ≤ diff)
    (hcr : 0 ≤ ledColor.x) (hcg : 0 ≤ ledColor.y) (hcb : 0 ≤ ledColor.z) :
    0 ≤ (shade ledColor materialId normal viewDir lightDir diff).x ∧
    0 ≤ (shade ledColor materialId normal viewDir lightDir diff).y ∧
    0 ≤ (shade ledColor materialId normal viewDir lightDir diff).z := by
  simp only [shade]
  split_ifs
  · exact glassMaterial_nonneg normal viewDir lightDir diff hn hv
  · exact plasticMaterial_nonneg normal viewDir lightDir diff hd
  · exact ⟨hcr, hcg, hcb⟩
  · refine ⟨by norm_num, by norm_num, by norm_num⟩

/-- C6 (amended): for every pixel input with a componentwise nonnegative
emissive color, every color component of the standalone core's output is
nonnegative and the alpha component is exactly 0 or 1. The claimed upper
bound of 1 on the color components is false (see the counterexample):
plastic shading exceeds 1. -/
theorem claim_C6 (v_uv resolution : ℝ × ℝ) (pitchAngle yawAngle : ℝ)
    (ledColor : Vec3) (hcr : 0 ≤ ledColor.x) (hcg : 0 ≤ ledColor.y)
    (hcb : 0 ≤ ledColor.z) :
    0 ≤ (mainFrag v_uv resolution pitchAngle yawAngle ledColor).r ∧
    0 ≤ (mainFrag v_uv resolution pitchAngle yawAngle ledColor).g ∧
    0 ≤ (mainFrag v_uv resolution pitchAngle yawAngle ledColor).b ∧
    ((mainFrag v_uv resolution pitchAngle yawAngle ledColor).a = 0 ∨
      (mainFrag v_uv resolution pitchAngle yawAngle ledColor).a = 1) := by
  simp only [mainFrag]
  split_ifs with h
  · have hn : Vec3.len (calcNormalFrag pitchAngle yawAngle
        (Vec3.add ⟨0.0, 0.0, -2.35⟩
          (Vec3.smul (rayMarch pitchAngle yawAngle ⟨0.0, 0.0, -2.35⟩
            (rdFor v_uv resolution)).1 (rdFor v_uv resolution)))) ≤ 1 :=
      len_normalize_le _
    have hv : Vec3.len (Vec3.normalize (Vec3.neg (rdFor v_uv resolution))) ≤ 1 :=
      len_normalize_le _
    obtain ⟨h1, h2, h3⟩ := shade_nonneg ledColor
      (rayMarch pitchAngle yawAngle ⟨0.0, 0.0, -2.35⟩ (rdFor v_uv resolution)).2
      (calcNormalFrag pitchAngle yawAngle
        (Vec3.add ⟨0.0, 0.0, -2.35⟩
          (Vec3.smul (rayMarch pitchAngle yawAngle ⟨0.0, 0.0, -2.35⟩
            (rdFor v_uv resolution)).1 (rdFor v_uv resolution))))
      (Vec3.normalize (Vec3.neg (rdFor v_uv resolution)))
      (Vec3.normalize ⟨0.5, 0.5, -1.0⟩)
      (max 0.0 (Vec3.dot (calcNormalFrag pitchAngle yawAngle
        (Vec3.add ⟨0.0, 0.0, -2.35⟩
          (Vec3.smul (rayMarch pitchAngle yawAngle ⟨0.0, 0.0, -2.35⟩
            (rdFor v_uv resolution)).1 (rdFor v_uv resolution))))
        (Vec3.normalize ⟨0.5, 0.5, -1.0⟩)))
      hn hv (le_max_of_le_left (by norm_num)) hcr hcg hcb
    refine ⟨Real.rpow_nonneg h1 _, Real.rpow_nonneg h2 _,
      Real.rpow_nonneg h3 _, Or.inr (by norm_num)⟩
  · refine ⟨by norm_num, by norm_num, by norm_num, Or.inl (by norm_num)⟩

/-- Witness for C6 (amended) at a concrete pixel input. -/
theorem claim_C6_witness :
    0 ≤ (mainFrag (0.5, 0.5) (1, 1) 0 0 ⟨0, 0, 0⟩).r ∧
    0 ≤ (mainFrag (0.5, 0.5) (1, 1) 0 0 ⟨0, 0, 0⟩).g ∧
    0 ≤ (mainFrag (0.5, 0.5) (1, 1) 0 0 ⟨0, 0, 0⟩).b ∧
    ((mainFrag (0.5, 0.5) (1, 1) 0 0 ⟨0, 0, 0⟩).a = 0 ∨
      (mainFrag (0.5, 0.5) (1, 1) 0 0 ⟨0, 0, 0⟩).a = 1) :=
  claim_C6 (0.5, 0.5) (1, 1) 0 0 ⟨0, 0, 0⟩ le_rfl le_rfl le_rfl

/- ### Claim C6 (counterexample part): a pixel whose red output exceeds 1 -/

/-- The pitch angle of the counterexample pixel: `arcsin(36/85)`, chosen
so that sine and cosine are the rational pair `(36/85, 77/85)`. -/
def pitchC6 : ℝ := Real.arcsin (36 / 85)

/-- The yaw angle of the counterexample pixel: `arcsin(-8/17)`, with
sine/cosine pair `(-8/17, 15/17)`. -/
def yawC6 : ℝ := Real.arcsin (-8 / 17)

theorem sin_pitchC6 : Real.sin pitchC6 = 36 / 85 :=
  Real.sin_arcsin (by norm_num) (by norm_num)

theorem cos_pitchC6 : Real.cos pitchC6 = 77 / 85 := by
  unfold pitchC6
  rw [Real.cos_arcsin, show (1:ℝ) - (36 / 85) ^ 2 = (77 / 85) ^ 2 from by norm_num,
    Real.sqrt_sq (by norm_num)]

theorem sin_yawC6 : Real.sin yawC6 = -8 / 17 :=
  Real.sin_arcsin (by norm_num) (by norm_num)

theorem cos_yawC6 : Real.cos yawC6 = 15 / 17 := by
  unfold yawC6
  rw [Real.cos_arcsin, show (1:ℝ) - (-8 / 17) ^ 2 = (15 / 17) ^ 2 from by norm_num,
    Real.sqrt_sq (by norm_num)]

/-- The rotation of the counterexample angles, as an explicit rational
linear map. -/
theorem rot_c6 (p : Vec3) :
    rotatedP pitchC6 yawC6 p =
      ⟨15 / 17 * p.x + 8 / 17 * p.z,
       77 / 85 * p.y - 288 / 1445 * p.x + 108 / 289 * p.z,
       -(36 / 85) * p.y - 616 / 1445 * p.x + 1155 / 1445 * p.z⟩ := by
  rw [rotatedP_eq, sin_pitchC6, cos_pitchC6, sin_yawC6, cos_yawC6]
  simp only [Vec3.mk.injEq]
  refine ⟨by ring, by ring, by ring⟩

/-- The counterexample pixel's camera ray direction. -/
theorem rd_c6 : rdFor (3 / 14, 3 / 14) (1, 1) = ⟨-4 / 9, -4 / 9, 7 / 9⟩ := by
  have harg : rdFor (3 / 14, 3 / 14) (1, 1) =
      Vec3.normalize ⟨-4 / 7, -4 / 7, 1⟩ := by
    simp only [rdFor]
    norm_num
  rw [harg]
  have hlen : Vec3.len ⟨(-4 / 7 : ℝ), -4 / 7, 1⟩ = 9 / 7 := by
    simp only [Vec3.len]
    rw [show (-4 / 7 : ℝ) ^ 2 + (-4 / 7) ^ 2 + 1 ^ 2 = (9 / 7) ^ 2 from by norm_num,
      Real.sqrt_sq (by norm_num)]
  simp only [Vec3.normalize]
  rw [hlen]
  simp only [Vec3.mk.injEq]
  norm_num

/-- Lower bound for the octahedron term in terms of the rotated y
coordinate alone. -/
theorem octahedronD_ge_y (pitchAngle yawAngle : ℝ) (p : Vec3) :
    (Real.sqrt 2 * |(rotatedP pitchAngle yawAngle p).y| - 1.2) * 0.57735027 ≤
      octahedronD pitchAngle yawAngle p := by
  rw [octahedronD_eq]
  apply mul_le_mul_of_nonneg_right _ (by norm_num)
  have habs : 2 * |(rotatedP pitchAngle yawAngle p).y| ≤
      |(rotatedP pitchAngle yawAngle p).x / 1.2 + (rotatedP pitchAngle yawAngle p).y| +
      |(rotatedP pitchAngle yawAngle p).y - (rotatedP pitchAngle yawAngle p).x / 1.2| := by
    have h := abs_add
      ((rotatedP pitchAngle yawAngle p).x / 1.2 + (rotatedP pitchAngle yawAngle p).y)
      ((rotatedP pitchAngle yawAngle p).y - (rotatedP pitchAngle yawAngle p).x / 1.2)
    rw [show (rotatedP pitchAngle yawAngle p).x / 1.2 + (rotatedP pitchAngle yawAngle p).y +
      ((rotatedP pitchAngle yawAngle p).y - (rotatedP pitchAngle yawAngle p).x / 1.2) =
      2 * (rotatedP pitchAngle yawAngle p).y from by ring] at h
    calc 2 * |(rotatedP pitchAngle yawAngle p).y| = |2 * (rotatedP pitchAngle yawAngle p).y| := by
          rw [abs_mul, show |(2:ℝ)| = 2 from by rw [abs_of_nonneg] <;> norm_num]
      _ ≤ _ := h
  have hz := abs_nonneg ((rotatedP pitchAngle yawAngle p).z + 1)
  have hs : (0:ℝ) ≤ Real.sqrt 2 := Real.sqrt_nonneg 2
  nlinarith

/-- The octahedron term is nonnegative whenever the rotated point sits at
`|y| ≥ 0.88` (outside the front cutout). -/
theorem octahedronD_nonneg_y (pitchAngle yawAngle : ℝ) (p : Vec3)
    (hy : 0.88 ≤ |(rotatedP pitchAngle yawAngle p).y|) :
    0 ≤ octahedronD pitchAngle yawAngle p := by
  have h := octahedronD_ge_y pitchAngle yawAngle p
  have h2 := sqrt_two_gt
  nlinarith [abs_nonneg ((rotatedP pitchAngle yawAngle p).y)]

/-- The LED sphere is far from any rotated point with `x ≤ -1.05`. -/
theorem ledSphereD_ge_via_x (pitchAngle yawAngle : ℝ) (p : Vec3)
    (hx : (rotatedP pitchAngle yawAngle p).x ≤ -1.05) :
    2.1 ≤ ledSphereD pitchAngle yawAngle p := by
  unfold ledSphereD
  simp only [sdSphere, Vec3.sub]
  have h := len_ge_absx ⟨(rotatedP pitchAngle yawAngle p).x - 1.1,
    (rotatedP pitchAngle yawAngle p).y - -0.9,
    (rotatedP pitchAngle yawAngle p).z - -1.0⟩
  rw [show (⟨(rotatedP pitchAngle yawAngle p).x - 1.1,
    (rotatedP pitchAngle yawAngle p).y - -0.9,
    (rotatedP pitchAngle yawAngle p).z - -1.0⟩ : Vec3).x =
    (rotatedP pitchAngle yawAngle p).x - 1.1 from rfl] at h
  rw [abs_of_nonpos (by linarith)] at h
  linarith

/-- Evaluation of `map` on the front face of the rotated cube, outside
the cutout and away from the LED and cylinder influence. -/
theorem map_front (pitchAngle yawAngle : ℝ) (p : Vec3) (X Y Z : ℝ)
    (hrot : rotatedP pitchAngle yawAngle p = ⟨X, Y, Z⟩)
    (hX : |X| ≤ 1.2) (hY : |Y| ≤ 1) (hZ : Z ≤ -1)
    (hoct : -octahedronD pitchAngle yawAngle p ≤ -Z - 1)
    (hled : -Z - 1 ≤ ledSphereD pitchAngle yawAngle p) :
    map pitchAngle yawAngle p = (-Z - 1, MATERIAL_PLASTIC) := by
  have hcube : cubeD pitchAngle yawAngle p = -Z - 1 := by
    unfold cubeD
    rw [hrot]
    rw [sdBox_front
      (by
        rw [show (⟨X, Y, Z⟩ : Vec3).x = X from rfl,
          show (⟨1.2, 1.0, 1.0⟩ : Vec3).x = 1.2 from rfl]
        exact hX)
      (by
        rw [show (⟨X, Y, Z⟩ : Vec3).y = Y from rfl,
          show (⟨1.2, 1.0, 1.0⟩ : Vec3).y = 1.0 from rfl]
        linarith)
      (by
        rw [show (⟨X, Y, Z⟩ : Vec3).z = Z from rfl,
          show (⟨1.2, 1.0, 1.0⟩ : Vec3).z = 1.0 from rfl,
          abs_of_nonpos (by linarith)]
        linarith)]
    rw [show (⟨X, Y, Z⟩ : Vec3).z = Z from rfl,
      show (⟨1.2, 1.0, 1.0⟩ : Vec3).z = 1.0 from rfl,
      abs_of_nonpos (by linarith)]
    norm_num
  rw [map_eval_cube pitchAngle yawAngle p (by rw [hcube]; exact hoct)
    (by rw [hcube]; exact hled), hcube]

theorem mapC6_p0 :
    map pitchC6 yawC6 ⟨0.0, 0.0, -2.35⟩ = (10857 / 5780 - 1, MATERIAL_PLASTIC) := by
  have hrot : rotatedP pitchC6 yawC6 ⟨0.0, 0.0, -2.35⟩ =
      ⟨-94 / 85, -1269 / 1445, -10857 / 5780⟩ := by
    rw [rot_c6]
    simp only [Vec3.mk.injEq]
    norm_num
  have h := map_front pitchC6 yawC6 ⟨0.0, 0.0, -2.35⟩ _ _ _ hrot
    (by rw [abs_of_nonpos (by norm_num)]; norm_num)
    (by rw [abs_of_nonpos (by norm_num)]; norm_num)
    (by norm_num)
    (by
      have := octahedronD_ge pitchC6 yawC6 ⟨0.0, 0.0, -2.35⟩
      norm_num
      linarith)
    (by
      have := ledSphereD_ge_via_x pitchC6 yawC6 ⟨0.0, 0.0, -2.35⟩
        (by rw [hrot, show (⟨-94 / 85, -1269 / 1445, -10857 / 5780⟩ : Vec3).x =
          -94 / 85 from rfl]; norm_num)
      norm_num
      linarith)
  rw [h]
  norm_num

theorem mapC6_p1 :
    map pitchC6 yawC6 ⟨-5077 / 13005, -5077 / 13005, -21677 / 13005⟩ =
      (18802379 / 18792225 - 1, MATERIAL_PLASTIC) := by
  have hrot : rotatedP pitchC6 yawC6 ⟨-5077 / 13005, -5077 / 13005, -21677 / 13005⟩ =
      ⟨-249571 / 221085, -16889197 / 18792225, -18802379 / 18792225⟩ := by
    rw [rot_c6]
    simp only [Vec3.mk.injEq]
    norm_num
  have hYabs : (0.88:ℝ) ≤
      |(rotatedP pitchC6 yawC6 ⟨-5077 / 13005, -5077 / 13005, -21677 / 13005⟩).y| := by
    rw [hrot, show (⟨-249571 / 221085, -16889197 / 18792225,
      -18802379 / 18792225⟩ : Vec3).y = -16889197 / 18792225 from rfl,
      abs_of_nonpos (by norm_num)]
    norm_num
  have h := map_front pitchC6 yawC6 ⟨-5077 / 13005, -5077 / 13005, -21677 / 13005⟩
    _ _ _ hrot
    (by rw [abs_of_nonpos (by norm_num)]; norm_num)
    (by rw [abs_of_nonpos (by norm_num)]; norm_num)
    (by norm_num)
    (by
      have := octahedronD_nonneg_y pitchC6 yawC6 _ hYabs
      norm_num
      linarith)
    (by
      have := ledSphereD_ge_via_x pitchC6 yawC6
        ⟨-5077 / 13005, -5077 / 13005, -21677 / 13005⟩
        (by rw [hrot, show (⟨-249571 / 221085, -16889197 / 18792225,
          -18802379 / 18792225⟩ : Vec3).x = -249571 / 221085 from rfl]; norm_num)
      norm_num
      linarith)
  rw [h]
  norm_num

theorem mapC6_xm :
    map pitchC6 yawC6 ⟨-1018001 / 2601000, -5077 / 13005, -21677 / 13005⟩ =
      (469859198 / 469805625 - 1, MATERIAL_PLASTIC) := by
  have hrot : rotatedP pitchC6 yawC6
      ⟨-1018001 / 2601000, -5077 / 13005, -21677 / 13005⟩ =
      ⟨-9990643 / 8843400, -422136289 / 469805625, -469859198 / 469805625⟩ := by
    rw [rot_c6]
    simp only [Vec3.mk.injEq]
    norm_num
  have hYabs : (0.88:ℝ) ≤ |(rotatedP pitchC6 yawC6
      ⟨-1018001 / 2601000, -5077 / 13005, -21677 / 13005⟩).y| := by
    rw [hrot, show (⟨-9990643 / 8843400, -422136289 / 469805625,
      -469859198 / 469805625⟩ : Vec3).y = -422136289 / 469805625 from rfl,
      abs_of_nonpos (by norm_num)]
    norm_num
  have h := map_front pitchC6 yawC6
    ⟨-1018001 / 2601000, -5077 / 13005, -21677 / 13005⟩ _ _ _ hrot
    (by rw [abs_of_nonpos (by norm_num)]; norm_num)
    (by rw [abs_of_nonpos (by norm_num)]; norm_num)
    (by norm_num)
    (by
      have := octahedronD_nonneg_y pitchC6 yawC6 _ hYabs
      norm_num
      linarith)
    (by
      have := ledSphereD_ge_via_x pitchC6 yawC6
        ⟨-1018001 / 2601000, -5077 / 13005, -21677 / 13005⟩
        (by rw [hrot, show (⟨-9990643 / 8843400, -422136289 / 469805625,
          -469859198 / 469805625⟩ : Vec3).x = -9990643 / 8843400 from rfl]; norm_num)
      norm_num
      linarith)
  rw [h]
  norm_num

theorem mapC6_ym :
    map pitchC6 yawC6 ⟨-5077 / 13005, -1018001 / 2601000, -21677 / 13005⟩ =
      (939720997 / 939611250 - 1, MATERIAL_PLASTIC) := by
  have hrot : rotatedP pitchC6 yawC6
      ⟨-5077 / 13005, -1018001 / 2601000, -21677 / 13005⟩ =
      ⟨-249571 / 221085, -3381244109 / 3758445000, -939720997 / 939611250⟩ := by
    rw [rot_c6]
    simp only [Vec3.mk.injEq]
    norm_num
  have hYabs : (0.88:ℝ) ≤ |(rotatedP pitchC6 yawC6
      ⟨-5077 / 13005, -1018001 / 2601000, -21677 / 13005⟩).y| := by
    rw [hrot, show (⟨-249571 / 221085, -3381244109 / 3758445000,
      -939720997 / 939611250⟩ : Vec3).y = -3381244109 / 3758445000 from rfl,
      abs_of_nonpos (by norm_num)]
    norm_num
  have h := map_front pitchC6 yawC6
    ⟨-5077 / 13005, -1018001 / 2601000, -21677 / 13005⟩ _ _ _ hrot
    (by rw [abs_of_nonpos (by norm_num)]; norm_num)
    (by rw [abs_of_nonpos (by norm_num)]; norm_num)
    (by norm_num)
    (by
      have := octahedronD_nonneg_y pitchC6 yawC6 _ hYabs
      norm_num
      linarith)
    (by
      have := ledSphereD_ge_via_x pitchC6 yawC6
        ⟨-5077 / 13005, -1018001 / 2601000, -21677 / 13005⟩
        (by rw [hrot, show (⟨-249571 / 221085, -3381244109 / 3758445000,
          -939720997 / 939611250⟩ : Vec3).x = -249571 / 221085 from rfl]; norm_num)
      norm_num
      linarith)
  rw [h]
  norm_num

theorem mapC6_zm :
    map pitchC6 yawC6 ⟨-5077 / 13005, -5077 / 13005, -4338001 / 2601000⟩ =
      (752695991 / 751689000 - 1, MATERIAL_PLASTIC) := by
  have hrot : rotatedP pitchC6 yawC6
      ⟨-5077 / 13005, -5077 / 13005, -4338001 / 2601000⟩ =
      ⟨-6241876 / 5527125, -168962197 / 187922250, -752695991 / 751689000⟩ := by
    rw [rot_c6]
    simp only [Vec3.mk.injEq]
    norm_num
  have hYabs : (0.88:ℝ) ≤ |(rotatedP pitchC6 yawC6
      ⟨-5077 / 13005, -5077 / 13005, -4338001 / 2601000⟩).y| := by
    rw [hrot, show (⟨-6241876 / 5527125, -168962197 / 187922250,
      -752695991 / 751689000⟩ : Vec3).y = -168962197 / 187922250 from rfl,
      abs_of_nonpos (by norm_num)]
    norm_num
  have h := map_front pitchC6 yawC6
    ⟨-5077 / 13005, -5077 / 13005, -4338001 / 2601000⟩ _ _ _ hrot
    (by rw [abs_of_nonpos (by norm_num)]; norm_num)
    (by rw [abs_of_nonpos (by norm_num)]; norm_num)
    (by norm_num)
    (by
      have := octahedronD_nonneg_y pitchC6 yawC6 _ hYabs
      norm_num
      linarith)
    (by
      have := ledSphereD_ge_via_x pitchC6 yawC6
        ⟨-5077 / 13005, -5077 / 13005, -4338001 / 2601000⟩
        (by rw [hrot, show (⟨-6241876 / 5527125, -168962197 / 187922250,
          -752695991 / 751689000⟩ : Vec3).x = -6241876 / 5527125 from rfl]; norm_num)
      norm_num
      linarith)
  rw [h]
  norm_num

/-- The `d < eps` hit break of the marching loop. -/
theorem rayMarchLoop_hit (pitchAngle yawAngle : ℝ) (ro rd : Vec3) (n : ℕ)
    (t m : ℝ)
    (hd : (map pitchAngle yawAngle (Vec3.add ro (Vec3.smul t rd))).1 < 0.001) :
    rayMarchLoop pitchAngle yawAngle ro rd (Nat.succ n) t m =
      (t, (map pitchAngle yawAngle (Vec3.add ro (Vec3.smul t rd))).2) := by
  rw [rayMarchLoop_succ, if_pos (Or.inl hd)]

theorem hitptC6 :
    Vec3.add ⟨0.0, 0.0, -2.35⟩
      (Vec3.smul (0.0 + (10857 / 5780 - 1)) ⟨-4 / 9, -4 / 9, 7 / 9⟩) =
      ⟨-5077 / 13005, -5077 / 13005, -21677 / 13005⟩ := by
  simp only [Vec3.add, Vec3.smul, Vec3.mk.injEq]
  norm_num

theorem rayMarchC6 :
    rayMarch pitchC6 yawC6 ⟨0.0, 0.0, -2.35⟩ ⟨-4 / 9, -4 / 9, 7 / 9⟩ =
      (0.0 + (10857 / 5780 - 1), MATERIAL_PLASTIC) := by
  unfold rayMarch
  have s1 : rayMarchLoop pitchC6 yawC6 ⟨0.0, 0.0, -2.35⟩ ⟨-4 / 9, -4 / 9, 7 / 9⟩
        100 0.0 (-1.0) =
      rayMarchLoop pitchC6 yawC6 ⟨0.0, 0.0, -2.35⟩ ⟨-4 / 9, -4 / 9, 7 / 9⟩
        99 (0.0 + (10857 / 5780 - 1)) MATERIAL_PLASTIC :=
    rayMarchLoop_step pitchC6 yawC6 _ _ 99 0.0 (-1.0) (10857 / 5780 - 1)
      MATERIAL_PLASTIC
      (by
        rw [show Vec3.add ⟨0.0, 0.0, -2.35⟩
          (Vec3.smul 0.0 ⟨-4 / 9, -4 / 9, 7 / 9⟩) = ⟨0.0, 0.0, -2.35⟩ from by
            simp only [Vec3.add, Vec3.smul, Vec3.mk.injEq]
            norm_num]
        exact mapC6_p0)
      (by norm_num)
  have s2 : rayMarchLoop pitchC6 yawC6 ⟨0.0, 0.0, -2.35⟩ ⟨-4 / 9, -4 / 9, 7 / 9⟩
        99 (0.0 + (10857 / 5780 - 1)) MATERIAL_PLASTIC =
      (0.0 + (10857 / 5780 - 1),
        (map pitchC6 yawC6 (Vec3.add ⟨0.0, 0.0, -2.35⟩
          (Vec3.smul (0.0 + (10857 / 5780 - 1)) ⟨-4 / 9, -4 / 9, 7 / 9⟩))).2) :=
    rayMarchLoop_hit pitchC6 yawC6 _ _ 98 _ _
      (by rw [hitptC6, mapC6_p1]; norm_num)
  rw [s1, s2, hitptC6, mapC6_p1]

/-- The one-sided normal at the counterexample hit point: exactly the
rotated front-face normal, a rational unit vector. -/
theorem normalC6 :
    calcNormalFrag pitchC6 yawC6 ⟨-5077 / 13005, -5077 / 13005, -21677 / 13005⟩ =
      ⟨616 / 1445, 612 / 1445, -1155 / 1445⟩ := by
  rw [show calcNormalFrag pitchC6 yawC6
      ⟨-5077 / 13005, -5077 / 13005, -21677 / 13005⟩ =
      Vec3.normalize (backwardGradientFrag pitchC6 yawC6
        ⟨-5077 / 13005, -5077 / 13005, -21677 / 13005⟩) from rfl]
  have hg : backwardGradientFrag pitchC6 yawC6
      ⟨-5077 / 13005, -5077 / 13005, -21677 / 13005⟩ =
      ⟨77 / 180625, 9 / 21250, -231 / 289000⟩ := by
    unfold backwardGradientFrag
    simp only [Vec3.sub]
    rw [show (⟨-5077 / 13005 - 0.001, -5077 / 13005 - 0,
      -21677 / 13005 - 0⟩ : Vec3) =
      (⟨-1018001 / 2601000, -5077 / 13005, -21677 / 13005⟩ : Vec3) from by
        simp only [Vec3.mk.injEq]; norm_num]
    rw [show (⟨-5077 / 13005 - 0, -5077 / 13005 - 0.001,
      -21677 / 13005 - 0⟩ : Vec3) =
      (⟨-5077 / 13005, -1018001 / 2601000, -21677 / 13005⟩ : Vec3) from by
        simp only [Vec3.mk.injEq]; norm_num]
    rw [show (⟨-5077 / 13005 - 0, -5077 / 13005 - 0,
      -21677 / 13005 - 0.001⟩ : Vec3) =
      (⟨-5077 / 13005, -5077 / 13005, -4338001 / 2601000⟩ : Vec3) from by
        simp only [Vec3.mk.injEq]; norm_num]
    rw [mapC6_p1, mapC6_xm, mapC6_ym, mapC6_zm]
    simp only [Vec3.mk.injEq]
    norm_num
  rw [hg]
  have hlen : Vec3.len ⟨(77 / 180625 : ℝ), 9 / 21250, -231 / 289000⟩ = 1 / 1000 := by
    simp only [Vec3.len]
    rw [show (77 / 180625 : ℝ) ^ 2 + (9 / 21250) ^ 2 + (-231 / 289000) ^ 2 =
      (1 / 1000) ^ 2 from by norm_num, Real.sqrt_sq (by norm_num)]
  simp only [Vec3.normalize]
  rw [hlen]
  simp only [Vec3.mk.injEq]
  norm_num
